import Mathlib

/-!
# Elasticsearch index provisioner: provisioning and teardown sagas

A shallow embedding of `pkg/es/es.go` and `controllers/index_controller.go`.

* A Go `error` is `Option String`: `none` is `nil`, `some msg` is an error
  whose `Error()` text is `msg`.
* A Go function with several results returns a tuple.
* Every call that leaves the process (Elasticsearch, the Kubernetes API, the
  clock, the UUID generator) is answered by an oracle record holding one
  answer per call site, and is appended to the trace of the run.  No call site
  is executed twice in one run except the connection attempts, which are
  indexed by attempt number, so a record describes an arbitrary run.
* A run ends either by returning a value or by a Go runtime panic.
-/

namespace EsProvisioner

/-- Go `error`: `none` is `nil`, `some msg` carries the text of `Error()`. -/
abbrev GoError := Option String

/-- How a Go call ends: it returns, or the goroutine panics. -/
inductive Outcome (α : Type) where
  | ret (a : α)
  | panicked
  deriving DecidableEq, Repr

/-- A run: the external calls issued, in order, and how the run ended. -/
structure Run (ε α : Type) where
  trace : List ε
  out : Outcome α
  deriving DecidableEq, Repr

namespace Run

/-- Sequencing: a panic stops the run, keeping what was issued so far. -/
def bind {ε α β : Type} (m : Run ε α) (f : α → Run ε β) : Run ε β :=
  match m.out with
  | .ret a => ⟨m.trace ++ (f a).trace, (f a).out⟩
  | .panicked => ⟨m.trace, .panicked⟩

instance {ε : Type} : Monad (Run ε) where
  pure a := ⟨[], .ret a⟩
  bind := Run.bind

/-- Record one external call. -/
def emit {ε : Type} (e : ε) : Run ε Unit := ⟨[e], .ret ()⟩

/-- A Go runtime panic (nil dereference). -/
def panic {ε α : Type} : Run ε α := ⟨[], .panicked⟩

end Run

/-! ## `strings.Contains` -/

namespace strings

/-- Does `sub` occur in `s` as a contiguous block. -/
def containsChars : List Char → List Char → Bool
  | [], sub => sub.isEmpty
  | c :: cs, sub => sub.isPrefixOf (c :: cs) || containsChars cs sub

/-- Go `strings.Contains(s, substr)`; on valid UTF-8 a byte-wise match is a
code-point-wise match. -/
def Contains (s substr : String) : Bool := containsChars s.toList substr.toList

end strings

/-! ## `pkg/es/es.go` -/

namespace es

/-- The part of `esapi.Response` the program reads: the status code and the
text produced by `res.String()`. -/
structure Response where
  StatusCode : Int
  text : String
  deriving DecidableEq, Repr

/-- Library `(*esapi.Response).IsError`. -/
def Response.IsError (r : Response) : Bool := decide (r.StatusCode > 299)

/-- Library `(*esapi.Response).String`. -/
def Response.String (r : Response) : String := r.text

/-- The Go pair `(*esapi.Response, error)` returned by every API call; `res`
is `none` for a nil response. -/
structure ApiResult where
  res : Option Response
  err : GoError
  deriving DecidableEq, Repr

structure EsResult where
  UserName : String
  Password : String
  Role : String
  Index : String
  Alias : String
  deriving DecidableEq, Repr

structure EsOptions where
  Connection : String
  Retries : Int
  Username : String
  Password : String
  deriving DecidableEq, Repr

structure EsSetupOptions where
  Shards : Int
  RefreshInterval : String
  Replicas : Int
  Namespace : String
  IndexName : String
  App : String
  Spec : String
  Analyzers : String
  Properties : String
  Source : Bool
  deriving DecidableEq, Repr

structure EsRemoveOptions where
  Index : String
  Alias : String
  Role : String
  User : String
  deriving DecidableEq, Repr

/-- The fields of `elasticsearch.Config` that `connectEs` sets (the
`RetryBackoff` closure is kept apart from the record). -/
structure Config where
  Addresses : List String
  MaxRetries : Int
  CompressRequestBody : Bool
  RetryOnStatus : List Int
  Username : String
  Password : String
  deriving DecidableEq, Repr

/-- An `*elasticsearch.Client`, identified by the configuration it was built from. -/
structure Client where
  cfg : Config
  deriving DecidableEq, Repr

/-- The receiver `EsClient` (the `env` field is never read). -/
structure EsClient where
  client : Client
  url : String
  deriving DecidableEq, Repr

/-- The format strings handed to `fmt.Sprintf`: the three constants of
`pkg/model/model.go`, or a schema supplied by the caller. -/
inductive Template where
  | INDEX_TEMPLATE
  | ROLE_TEMPLATE
  | USER_TEMPLATE
  | schema (s : String)
  deriving DecidableEq, Repr

inductive FmtArg where
  | int (i : Int)
  | str (s : String)
  | bool (b : Bool)
  deriving DecidableEq, Repr

/-- A request body `fmt.Sprintf(format, args...)`, kept unrendered. -/
structure Body where
  format : Template
  args : List FmtArg
  deriving DecidableEq, Repr

/-- The API requests of the program. -/
inductive ApiRequest where
  | IndicesCreate (index : String) (body : Body)
  | IndicesPutAlias (index : String) (alias_ : String)
  | SecurityPutRole (name : String) (body : Body)
  | SecurityPutUser (name : String) (body : Body)
  | IndicesGet (index : String)
  | IndicesDeleteAlias (index : String) (alias_ : String)
  | IndicesDelete (index : String)
  | SecurityDeleteUser (user : String)
  | SecurityDeleteRole (role : String)
  deriving DecidableEq, Repr

/-- What `es.go` does to the outside world. -/
inductive EsCall where
  | NewClient (cfg : Config)
  | Sleep (d : Int)
  | Do (client : Client) (req : ApiRequest)
  deriving DecidableEq, Repr

/-- The answers of the outside world, one per call site of `es.go`. -/
structure Backend where
  /-- `time.Now().Format(time.RFC3339)` -/
  now : String
  /-- `uuid.New().String()` in `InitializeIndex` -/
  uuidName : String
  /-- `uuid.New().String()` in `createUser` -/
  uuidPassword : String
  /-- error of the `i`-th `elasticsearch.NewClient` of `connectEsWithRetry` -/
  NewClient : Nat → GoError
  IndicesCreate : ApiResult
  IndicesPutAlias : ApiResult
  SecurityPutRole : ApiResult
  SecurityPutUser : ApiResult
  IndicesGet : ApiResult
  IndicesDeleteAlias : ApiResult
  IndicesDelete : ApiResult
  SecurityDeleteUser : ApiResult
  SecurityDeleteRole : ApiResult

/-- Issue `req` through `client`; the backend answers `a`. -/
def perform (client : Client) (req : ApiRequest) (a : ApiResult) : Run EsCall ApiResult :=
  ⟨[.Do client req], .ret a⟩

/-- The statement `defer res.Body.Close()`: the receiver `res.Body` is
evaluated when the statement runs, which dereferences `res`. -/
def deferBodyClose (res : Option Response) : Run EsCall Response :=
  match res with
  | none => Run.panic
  | some r => pure r

/-- Wrap-around of a Go `int64` (`time.Duration`). -/
def wrapInt64 (x : Int) : Int := (x + 2 ^ 63) % 2 ^ 64 - 2 ^ 63

/-- `time.Second` in nanoseconds. -/
def Second : Int := 1000000000

def deleteAlias (c : EsClient) (b : Backend) (index : String) (alias_ : String) :
    Run EsCall GoError := do
  let a ← perform c.client (.IndicesDeleteAlias index alias_) b.IndicesDeleteAlias
  let res ← deferBodyClose a.res
  match a.err with
  | some err => pure (some ("Cannot delete Alias: " ++ err))
  | none =>
    if res.IsError then pure (some ("Cannot delete Alias: " ++ res.String))
    else pure none

def deleteIndex (c : EsClient) (b : Backend) (index : String) : Run EsCall GoError := do
  let a ← perform c.client (.IndicesDelete index) b.IndicesDelete
  let res ← deferBodyClose a.res
  match a.err with
  | some err => pure (some ("Cannot delete index: " ++ err))
  | none =>
    if res.IsError then pure (some ("Cannot delete index: " ++ res.String))
    else pure none

def deleteUser (c : EsClient) (b : Backend) (user : String) : Run EsCall GoError := do
  let a ← perform c.client (.SecurityDeleteUser user) b.SecurityDeleteUser
  let res ← deferBodyClose a.res
  match a.err with
  | some err => pure (some ("Cannot delete User: " ++ err))
  | none =>
    if res.IsError then pure (some ("Cannot delete User: " ++ res.String))
    else pure none

def deleteRole (c : EsClient) (b : Backend) (role : String) : Run EsCall GoError := do
  let a ← perform c.client (.SecurityDeleteRole role) b.SecurityDeleteRole
  let res ← deferBodyClose a.res
  match a.err with
  | some err => pure (some ("Cannot delete Role: " ++ err))
  | none =>
    if res.IsError then pure (some ("Cannot delete Role: " ++ res.String))
    else pure none

def RemoveIndex (c : EsClient) (b : Backend) (ops : EsRemoveOptions) : Run EsCall GoError := do
  match (← deleteAlias c b ops.Index ops.Alias) with
  | some e => pure (some e)
  | none =>
  match (← deleteIndex c b ops.Index) with
  | some e => pure (some e)
  | none =>
  match (← deleteUser c b ops.User) with
  | some e => pure (some e)
  | none =>
  match (← deleteRole c b ops.Role) with
  | some e => pure (some e)
  | none => pure none

/-- Library `time.Duration(math.Exp2(float64(i)))`: for an integer `i` the
power of two is computed exactly; the conversion truncates toward zero, and
from `2 ^ 63` on its result is left to the implementation, here `huge i`. -/
def exp2Duration (huge : Int → Int) (i : Int) : Int :=
  if i < 0 then 0 else if i < 63 then 2 ^ i.toNat else huge i

/-- The closure `RetryBackoff` that `connectEs` puts in every configuration:
`time.Duration(math.Exp2(float64(i))) * time.Second`. -/
def RetryBackoff (huge : Int → Int) (i : Int) : Int := wrapInt64 (exp2Duration huge i * Second)

def connectEs (b : Backend) (i : Nat) (ops : EsOptions) : Run EsCall (Option Client × GoError) := do
  let cfg : Config :=
    { Addresses := [ops.Connection]
      MaxRetries := ops.Retries
      CompressRequestBody := true
      RetryOnStatus := [429, 502, 503, 504, 500]
      Username := ""
      Password := "" }
  let cfg := if ops.Username ≠ "" then { cfg with Username := ops.Username } else cfg
  let cfg := if ops.Password ≠ "" then { cfg with Password := ops.Password } else cfg
  Run.emit (.NewClient cfg)
  match b.NewClient i with
  | some err => pure (none, some err)
  | none => pure (some ⟨cfg⟩, none)

/-- The loop of `connectEsWithRetry`: `fuel` iterations remain, `i` is the
loop counter. -/
def connectEsWithRetryLoop (b : Backend) (ops : EsOptions) :
    Nat → Nat → Int → Run EsCall (Option Client × GoError)
  | 0, _, _ =>
    -- the named result `err` is shadowed inside the loop and is still nil here
    pure (none, some ("after " ++ toString ops.Retries ++ " attempts, last error: %!s(<nil>)"))
  | fuel + 1, i, sleep => do
    let sleep ← (if i > 0 then do
        Run.emit (.Sleep sleep)
        pure (wrapInt64 (sleep * 2))
      else pure sleep : Run EsCall Int)
    let r ← connectEs b i ops
    match r.2 with
    | none => pure (r.1, none)
    | some _ => connectEsWithRetryLoop b ops fuel (i + 1) sleep

def connectEsWithRetry (b : Backend) (ops : EsOptions) (sleep : Int) :
    Run EsCall (Option Client × GoError) :=
  connectEsWithRetryLoop b ops ops.Retries.toNat 0 sleep

/-- The probe `testIndex`; a nil client is dereferenced by `c.Indices`. -/
def testIndex (b : Backend) (c : Option Client) (index : String) : Run EsCall GoError :=
  match c with
  | none => Run.panic
  | some c => do
    let a ← perform c (.IndicesGet index) b.IndicesGet
    let res ← deferBodyClose a.res
    match a.err with
    | some err => pure (some ("Cannot test index: " ++ err))
    | none =>
      if res.IsError then pure (some ("Cannot test index: " ++ res.String))
      else pure none

def createRole (c : EsClient) (b : Backend) (index : String) (aliasName : String)
    (app : String) (namespace_ : String) : Run EsCall (String × GoError) := do
  let roleName := app ++ "-" ++ namespace_ ++ "-role"
  let body : Body := ⟨.ROLE_TEMPLATE, [.str index, .str aliasName]⟩
  let a ← perform c.client (.SecurityPutRole roleName body) b.SecurityPutRole
  let res ← deferBodyClose a.res
  match a.err with
  | some err => pure ("", some ("Cannot create role: " ++ err))
  | none =>
    if res.IsError then pure ("", some ("Cannot create role: " ++ res.String))
    else pure (roleName, none)

def createUser (c : EsClient) (b : Backend) (_index : String) (role : String) :
    Run EsCall (String × String × GoError) := do
  let userName := role ++ "-user"
  let pw := b.uuidPassword
  let body : Body := ⟨.USER_TEMPLATE, [.str pw, .str role, .str userName]⟩
  let a ← perform c.client (.SecurityPutUser userName body) b.SecurityPutUser
  let res ← deferBodyClose a.res
  match a.err with
  | some err => pure ("", "", some ("Cannot create user: " ++ err))
  | none =>
    if res.IsError then pure ("", "", some ("Cannot create user: " ++ res.String))
    else pure (userName, pw, none)

def addAlias (c : EsClient) (b : Backend) (indexName : String) (aliasName : String) :
    Run EsCall (String × String × GoError) := do
  let a ← perform c.client (.IndicesPutAlias indexName aliasName) b.IndicesPutAlias
  let res ← deferBodyClose a.res
  match a.err with
  | some err => pure ("", "", some ("Cannot create alias: " ++ err))
  | none =>
    if res.IsError && !strings.Contains res.String "resource_already_exists_exception" then
      pure ("", "", some ("Cannot create alias: " ++ res.String))
    else pure (indexName, aliasName, none)

def createIndex (c : EsClient) (b : Backend) (name : String) (schema : String) (shards : Int)
    (replicas : Int) (refresh : String) (analyzers : String) (source : Bool) (props : String) :
    Run EsCall (String × String × GoError) := do
  -- the first ten bytes of the RFC 3339 text, which is ASCII, are the date
  let indexName := name ++ "-" ++ b.now.take 10
  let body : Body :=
    if schema = "" then
      let analyzers := if analyzers = "" then "standard" else analyzers
      let shards := if shards = 0 then 4 else shards
      let refresh := if refresh = "" then "30s" else refresh
      ⟨.INDEX_TEMPLATE,
        [.int shards, .int replicas, .str refresh, .str analyzers, .bool source, .str props]⟩
    else ⟨.schema schema, [.int shards, .int replicas, .str refresh]⟩
  let a ← perform c.client (.IndicesCreate indexName body) b.IndicesCreate
  let res ← deferBodyClose a.res
  match a.err with
  | some err => pure ("", "", some ("Cannot create index: " ++ err))
  | none =>
    if res.IsError && !strings.Contains res.String "resource_already_exists_exception" then
      pure ("", "", some ("Cannot create index: " ++ res.String))
    else addAlias c b indexName name

def InitializeIndex (c : EsClient) (b : Backend) (ops : EsSetupOptions) :
    Run EsCall (Option EsResult × GoError) := do
  -- the first eight bytes of the UUID text, which is ASCII
  let name :=
    if ops.IndexName = "" then
      if ops.Namespace = "" then "es-provisioner-" ++ b.uuidName.take 8
      else "es-provisioner-" ++ ops.App ++ "-" ++ ops.Namespace
    else ops.IndexName
  let (indexName, aliasName, e) ← createIndex c b name ops.Spec ops.Shards ops.Replicas
    ops.RefreshInterval ops.Analyzers ops.Source ops.Properties
  match e with
  | some e => pure (none, some e)
  | none =>
  let (roleName, e) ← createRole c b indexName aliasName ops.App ops.Namespace
  match e with
  | some e => pure (none, some e)
  | none =>
  let (userName, pw, e) ← createUser c b indexName roleName
  match e with
  | some e => pure (none, some e)
  | none =>
  let esOps : EsOptions :=
    { Connection := c.url, Retries := 1, Username := userName, Password := pw }
  let (userClient, e) ← connectEsWithRetry b esOps (5 * Second)
  match e with
  | some e => pure (none, some e)
  | none =>
  match (← testIndex b userClient indexName) with
  | some e => pure (none, some e)
  | none =>
    pure (some { UserName := userName, Password := pw, Role := roleName,
                 Index := indexName, Alias := aliasName }, none)

end es

/-! ## `api/v1/index_types.go` -/

namespace esv1

structure IndexSpec where
  Name : String
  Application : String
  ConfigMap : String
  NumberOfShards : Int
  NumberOfReplicas : Int
  RefreshInterval : String
  Analyzers : String
  SourceEnabled : Bool
  Properties : String
  deriving DecidableEq, Repr

abbrev IndexStatusEnum := String

def Creating : IndexStatusEnum := "Creating"

def Created : IndexStatusEnum := "Created"

def Ready : IndexStatusEnum := "Ready"

def Error : IndexStatusEnum := "Error"

set_option linter.dupNamespace false in
structure IndexStatus where
  IndexStatus : IndexStatusEnum
  deriving DecidableEq, Repr

/-- The request object; of `ObjectMeta` the fields the controller reads.
`DeletionTimestamp` is `none` for a nil pointer, and counts from Go's zero
time otherwise. -/
structure Index where
  Name : String
  Namespace : String
  DeletionTimestamp : Option Nat
  Finalizers : List String
  Spec : IndexSpec
  Status : IndexStatus
  deriving DecidableEq, Repr

end esv1

/-! ## `controllers/index_controller.go` -/

namespace controllers

open esv1

def finalizerName : String := "index.es-provisioner.com.ramos/finalizer"

def secretName : String := "es-provisioner-index-secret"

def configMapKey : String := "mapping.json"

/-- A Go `map[string]string` (or `map[string][]byte`) as an association list. -/
abbrev GoMap := List (String × String)

/-- Go `m[k]`: the zero value when the key is absent. -/
def GoMap.get (m : GoMap) (k : String) : String := (m.lookup k).getD ""

/-- Go `m[k] = v`. -/
def GoMap.set (m : GoMap) (k : String) (v : String) : GoMap :=
  if m.any (fun kv => kv.1 == k) then m.map (fun kv => if kv.1 == k then (k, v) else kv)
  else m ++ [(k, v)]

/-- Library `(*metav1.Time).IsZero`. -/
def IsZero (t : Option Nat) : Bool :=
  match t with
  | none => true
  | some n => n == 0

/-- Library `controllerutil.ContainsFinalizer`. -/
def ContainsFinalizer (o : Index) (finalizer : String) : Bool :=
  o.Finalizers.any (fun e => e == finalizer)

/-- Library `controllerutil.AddFinalizer`. -/
def AddFinalizer (o : Index) (finalizer : String) : Index :=
  if o.Finalizers.any (fun e => e == finalizer) then o
  else { o with Finalizers := o.Finalizers ++ [finalizer] }

/-- Library `controllerutil.RemoveFinalizer`. -/
def RemoveFinalizer (o : Index) (finalizer : String) : Index :=
  { o with Finalizers := o.Finalizers.filter (fun e => e != finalizer) }

/-- The argument `ctrl.Request`. -/
structure Request where
  Namespace : String
  Name : String
  deriving DecidableEq, Repr

/-- The value `ctrl.Result`. -/
structure Result where
  Requeue : Bool := false
  RequeueAfter : Int := 0
  deriving DecidableEq, Repr

structure Secret where
  Name : String
  Namespace : String
  Annotations : GoMap
  Data : GoMap
  deriving DecidableEq, Repr

/-- What the controller does to the outside world, each call with the error
it was answered with.  A call of the backend service is one event holding the
calls the service issued and how it ended. -/
inductive Event where
  | Get (req : Request)
  | Update (index : Index) (err : GoError)
  | StatusUpdate (index : Index)
  | NamespacesGet (name : String) (err : GoError)
  | ConfigMapsGet (ns : String) (name : String) (err : GoError)
  | SecretsGet (ns : String) (name : String) (err : GoError)
  | SecretsDelete (ns : String) (name : String) (err : GoError)
  | SecretsCreate (ns : String) (secret : Secret) (err : GoError)
  | InitializeIndex (ops : es.EsSetupOptions) (calls : List es.EsCall)
      (out : Outcome (Option es.EsResult × GoError))
  | RemoveIndex (ops : es.EsRemoveOptions) (calls : List es.EsCall) (out : Outcome GoError)
  deriving DecidableEq, Repr

/-- The answer of `r.Get`: the object, a not-found error, or another error. -/
inductive GetAnswer where
  | found (index : Index)
  | notFound (msg : String)
  | failed (msg : String)
  deriving DecidableEq, Repr

/-- The answers of the Kubernetes API, one per call site of the controller.
The answer of `r.Status().Update` is only logged and has no field. -/
structure Cluster where
  Get : GetAnswer
  /-- `r.Update`; on success the object handed back is the object sent -/
  Update : GoError
  /-- `Namespaces().Get`: the name of the namespace object and the error -/
  NamespacesGet : String × GoError
  /-- `ConfigMaps(ns).Get`: the `Data` of the config map and the error -/
  ConfigMapsGet : GoMap × GoError
  /-- `Secrets(ns).Get`: the `Data` of the secret and the error -/
  SecretsGet : GoMap × GoError
  /-- `Secrets(ns).Delete` in `deleteIndex` -/
  SecretsDelete : GoError
  /-- `Secrets(ns).Delete` in `createSecret` -/
  SecretsDeleteExisting : GoError
  SecretsCreate : GoError

/-- The receiver `IndexReconciler` with the world it runs in: the service
behind `EsService` is the `EsClient` built by `NewEsService`. -/
structure IndexReconciler where
  EsService : es.EsClient
  cluster : Cluster
  backend : es.Backend

def updateStatus (_r : IndexReconciler) (index : Index) (status : IndexStatusEnum) :
    Run Event Index := do
  let index := { index with Status := { IndexStatus := status } }
  Run.emit (.StatusUpdate index)
  pure index

def createSecret (r : IndexReconciler) (esResult : Option es.EsResult) (req : Request) :
    Run Event GoError := do
  -- delete existing; the answer is discarded
  Run.emit (.SecretsDelete req.Namespace secretName r.cluster.SecretsDeleteExisting)
  match esResult with
  | none => Run.panic
  | some esResult =>
  let secretData : GoMap := []
  let secretData := secretData.set "username" esResult.UserName
  let secretData := secretData.set "password" esResult.Password
  let secretData := secretData.set "index" esResult.Alias
  let secretData := secretData.set "_index" esResult.Index
  let secretData := secretData.set "role" esResult.Role
  let secret : Secret :=
    { Name := secretName, Namespace := req.Namespace,
      Annotations := [("owner", "es-provisioner")], Data := secretData }
  Run.emit (.SecretsCreate req.Namespace secret r.cluster.SecretsCreate)
  pure r.cluster.SecretsCreate

def getConfigMap (r : IndexReconciler) (index : Index) (namespace_ : String) :
    Run Event (String × GoError) := do
  if index.Spec.ConfigMap ≠ "" then
    let (cm, err) := r.cluster.ConfigMapsGet
    Run.emit (.ConfigMapsGet namespace_ index.Spec.ConfigMap err)
    match err with
    | some e => pure ("", some e)
    | none =>
      let cmData := cm.get configMapKey
      -- `err` is the nil error of the lookup that has just succeeded
      if cmData = "" then pure ("", err)
      else pure (cmData, none)
  else pure ("", none)

def provisionIndex (r : IndexReconciler) (index : Index) (req : Request) :
    Run Event (Result × GoError) := do
  let index ← updateStatus r index Creating
  let (ns, err) := r.cluster.NamespacesGet
  Run.emit (.NamespacesGet req.Namespace err)
  match err with
  | some e =>
    let _ ← updateStatus r index Error
    pure ({}, some e)
  | none =>
  let (spec, err) ← getConfigMap r index req.Namespace
  match err with
  | some e =>
    let _ ← updateStatus r index Error
    pure ({}, some e)
  | none =>
  let ops : es.EsSetupOptions :=
    { Shards := index.Spec.NumberOfShards
      RefreshInterval := index.Spec.RefreshInterval
      Replicas := index.Spec.NumberOfReplicas
      IndexName := index.Spec.Name
      App := index.Spec.Application
      Namespace := ns
      Spec := spec
      Analyzers := index.Spec.Analyzers
      Properties := index.Spec.Properties
      Source := index.Spec.SourceEnabled }
  let call := es.InitializeIndex r.EsService r.backend ops
  let (esResult, err) ← (⟨[.InitializeIndex ops call.trace call.out], call.out⟩ :
    Run Event (Option es.EsResult × GoError))
  match err with
  | some e =>
    let _ ← updateStatus r index Error
    pure ({}, some e)
  | none =>
  let index ← updateStatus r index Created
  match (← createSecret r esResult req) with
  | some e =>
    let _ ← updateStatus r index Error
    pure ({}, some e)
  | none =>
    let _ ← updateStatus r index Ready
    pure ({}, none)

def deleteIndex (r : IndexReconciler) (index : Index) : Run Event GoError := do
  let (secret, err) := r.cluster.SecretsGet
  Run.emit (.SecretsGet index.Namespace secretName err)
  match err with
  | some e => pure (some e)
  | none =>
  let indx := secret.get "index"
  let ops : es.EsRemoveOptions :=
    { Index := secret.get "_index", Alias := indx, Role := secret.get "role",
      User := secret.get "username" }
  let call := es.RemoveIndex r.EsService r.backend ops
  match (← (⟨[.RemoveIndex ops call.trace call.out], call.out⟩ : Run Event GoError)) with
  | some e => pure (some e)
  | none =>
  Run.emit (.SecretsDelete index.Namespace secretName r.cluster.SecretsDelete)
  match r.cluster.SecretsDelete with
  | some e => pure (some e)
  | none => pure none

def setFinalizer (r : IndexReconciler) (index : Index) : Run Event (Index × GoError) := do
  if IsZero index.DeletionTimestamp then
    if !ContainsFinalizer index finalizerName then
      let index := AddFinalizer index finalizerName
      Run.emit (.Update index r.cluster.Update)
      match r.cluster.Update with
      | some e => pure (index, some e)
      | none => pure (index, none)
    else pure (index, none)
  else
    if ContainsFinalizer index finalizerName then
      match (← deleteIndex r index) with
      | none =>
        -- `err.Error()` on the nil error
        Run.panic
      | some msg =>
        if !strings.Contains msg "not found" then pure (index, some msg)
        else
          let index := RemoveFinalizer index finalizerName
          Run.emit (.Update index r.cluster.Update)
          match r.cluster.Update with
          | some e => pure (index, some e)
          | none => pure (index, none)
    else pure (index, none)

def Reconcile (r : IndexReconciler) (req : Request) : Run Event (Result × GoError) := do
  Run.emit (.Get req)
  match r.cluster.Get with
  | .notFound _ => pure ({}, none)
  | .failed e => pure ({}, some e)
  | .found index =>
    let (index, err) ← setFinalizer r index
    match err with
    | some e =>
      let _ ← updateStatus r index Error
      pure ({}, some e)
    | none =>
      if index.Status.IndexStatus = "" then provisionIndex r index req
      else pure ({}, none)

end controllers


/-! ## Observations on runs -/

namespace es

/-- The call was answered with a response and no error, and the response is
not an error response. -/
def ApiResult.succeeded (a : ApiResult) : Bool :=
  match a.res with
  | none => false
  | some r =>
    match a.err with
    | some _ => false
    | none => !r.IsError

/-- The call was answered with a response of the given status code and no error. -/
def ApiResult.hasStatus (a : ApiResult) (code : Int) : Bool :=
  match a.res with
  | none => false
  | some r =>
    match a.err with
    | some _ => false
    | none => decide (r.StatusCode = code)

/-- The body shared by the helpers that return only an error: how the helper
ends on the answer `a`, with `what` the text it puts before the cause. -/
def stepOutcome (what : String) (a : ApiResult) : Outcome GoError :=
  match a.res with
  | none => .panicked
  | some r =>
    match a.err with
    | some err => .ret (some (what ++ err))
    | none => if r.IsError then .ret (some (what ++ r.String)) else .ret none

/-- The body shared by `createIndex` and `addAlias`: as `stepOutcome`, except
that an error response whose text holds `resource_already_exists_exception`
is no error. -/
def tolerantOutcome (what : String) (a : ApiResult) : Outcome GoError :=
  match a.res with
  | none => .panicked
  | some r =>
    match a.err with
    | some err => .ret (some (what ++ err))
    | none =>
      if r.IsError && !strings.Contains r.String "resource_already_exists_exception" then
        .ret (some (what ++ r.String))
      else .ret none

/-- The call was answered with an error response whose text holds
`resource_already_exists_exception`, and no error. -/
def ApiResult.conflict (a : ApiResult) : Bool :=
  match a.res with
  | none => false
  | some r =>
    match a.err with
    | some _ => false
    | none => r.IsError && strings.Contains r.String "resource_already_exists_exception"

/-- The call was answered with an error response of any other text, and no error. -/
def ApiResult.otherErrorResponse (a : ApiResult) : Bool :=
  match a.res with
  | none => false
  | some r =>
    match a.err with
    | some _ => false
    | none => r.IsError && !strings.Contains r.String "resource_already_exists_exception"

/-- The request body built by `createIndex`. -/
def createIndexBody (schema : String) (shards : Int) (replicas : Int) (refresh : String)
    (analyzers : String) (source : Bool) (props : String) : Body :=
  if schema = "" then
    ⟨.INDEX_TEMPLATE,
      [.int (if shards = 0 then 4 else shards), .int replicas,
        .str (if refresh = "" then "30s" else refresh),
        .str (if analyzers = "" then "standard" else analyzers), .bool source, .str props]⟩
  else ⟨.schema schema, [.int shards, .int replicas, .str refresh]⟩

/-- The name `InitializeIndex` resolves: the explicit name, else
`es-provisioner-{app}-{namespace}`, else a random short identifier. -/
def resolvedName (b : Backend) (ops : EsSetupOptions) : String :=
  if ops.IndexName = "" then
    if ops.Namespace = "" then "es-provisioner-" ++ b.uuidName.take 8
    else "es-provisioner-" ++ ops.App ++ "-" ++ ops.Namespace
  else ops.IndexName

/-- The configuration of the second client, built for the new user. -/
def userConfig (c : EsClient) (userName : String) (pw : String) : Config :=
  let cfg : Config :=
    { Addresses := [c.url], MaxRetries := 1, CompressRequestBody := true,
      RetryOnStatus := [429, 502, 503, 504, 500], Username := "", Password := "" }
  let cfg := if userName ≠ "" then { cfg with Username := userName } else cfg
  if pw ≠ "" then { cfg with Password := pw } else cfg

/-- The six calls of a complete provisioning, in the order of `InitializeIndex`. -/
def provisionCalls (c : EsClient) (b : Backend) (ops : EsSetupOptions) : List EsCall :=
  let name := resolvedName b ops
  let indexName := name ++ "-" ++ b.now.take 10
  let roleName := ops.App ++ "-" ++ ops.Namespace ++ "-role"
  let userName := roleName ++ "-user"
  [.Do c.client (.IndicesCreate indexName
      (createIndexBody ops.Spec ops.Shards ops.Replicas ops.RefreshInterval ops.Analyzers
        ops.Source ops.Properties)),
   .Do c.client (.IndicesPutAlias indexName name),
   .Do c.client (.SecurityPutRole roleName ⟨.ROLE_TEMPLATE, [.str indexName, .str name]⟩),
   .Do c.client (.SecurityPutUser userName
      ⟨.USER_TEMPLATE, [.str b.uuidPassword, .str roleName, .str userName]⟩),
   .NewClient (userConfig c userName b.uuidPassword),
   .Do ⟨userConfig c userName b.uuidPassword⟩ (.IndicesGet indexName)]

/-- The result of a complete provisioning. -/
def provisionResult (b : Backend) (ops : EsSetupOptions) : EsResult :=
  { UserName := ops.App ++ "-" ++ ops.Namespace ++ "-role" ++ "-user"
    Password := b.uuidPassword
    Role := ops.App ++ "-" ++ ops.Namespace ++ "-role"
    Index := resolvedName b ops ++ "-" ++ b.now.take 10
    Alias := resolvedName b ops }

/-- The configuration `connectEs` builds from `ops`. -/
def configOf (ops : EsOptions) : Config :=
  let cfg : Config :=
    { Addresses := [ops.Connection], MaxRetries := ops.Retries, CompressRequestBody := true,
      RetryOnStatus := [429, 502, 503, 504, 500], Username := "", Password := "" }
  let cfg := if ops.Username ≠ "" then { cfg with Username := ops.Username } else cfg
  if ops.Password ≠ "" then { cfg with Password := ops.Password } else cfg

/-- The value of the variable `sleep` of `connectEsWithRetry` after `j`
doublings, each wrapped to 64 bits. -/
def doubled (s : Int) : Nat → Int
  | 0 => s
  | j + 1 => wrapInt64 (doubled s j * 2)

/-- The calls of the attempt with loop counter `i`: from the second attempt
on, a sleep comes first. -/
def attemptCalls (cfg : Config) (s : Int) (i : Nat) : List EsCall :=
  if i > 0 then [.Sleep (doubled s (i - 1)), .NewClient cfg] else [.NewClient cfg]

/-- The calls of `m` attempts in a row, the first with loop counter `i`. -/
def attemptsFrom (cfg : Config) (s : Int) : Nat → Nat → List EsCall
  | _, 0 => []
  | i, m + 1 => attemptCalls cfg s i ++ attemptsFrom cfg s (i + 1) m

/-- The calls of `m` attempts in a row with the waits of an exact exponential
backoff: `s * 2 ^ (i - 1)` before the attempt with loop counter `i`. -/
def backoffFrom (cfg : Config) (s : Int) : Nat → Nat → List EsCall
  | _, 0 => []
  | i, m + 1 =>
    (if i > 0 then [.Sleep (s * 2 ^ (i - 1)), .NewClient cfg] else [.NewClient cfg]) ++
      backoffFrom cfg s (i + 1) m

/-- The loop counter of the first attempt that is answered without error,
among `m` attempts starting with loop counter `i`. -/
def firstSuccess (answers : Nat → GoError) : Nat → Nat → Option Nat
  | _, 0 => none
  | i, m + 1 => if (answers i).isNone then some i else firstSuccess answers (i + 1) m

/-- The configuration of a connection attempt. -/
def EsCall.connected : EsCall → Option Config
  | .NewClient cfg => some cfg
  | .Sleep _ => none
  | .Do _ _ => none

/-- The duration of a sleep. -/
def EsCall.slept : EsCall → Option Int
  | .Sleep d => some d
  | .NewClient _ => none
  | .Do _ _ => none

/-- The error `connectEsWithRetry` returns when no attempt succeeded. -/
def exhausted (ops : EsOptions) : String :=
  "after " ++ toString ops.Retries ++ " attempts, last error: %!s(<nil>)"

/-- The four delete requests of the teardown, in the order of `RemoveIndex`. -/
def deleteCalls (c : EsClient) (ops : EsRemoveOptions) : List EsCall :=
  [.Do c.client (.IndicesDeleteAlias ops.Index ops.Alias),
   .Do c.client (.IndicesDelete ops.Index),
   .Do c.client (.SecurityDeleteUser ops.User),
   .Do c.client (.SecurityDeleteRole ops.Role)]

end es

namespace controllers

open esv1

/-- The object sent by an `Update`. -/
def Event.updated : Event → Option Index
  | .Update index _ => some index
  | .Get _ => none
  | .StatusUpdate _ => none
  | .NamespacesGet _ _ => none
  | .ConfigMapsGet _ _ _ => none
  | .SecretsGet _ _ _ => none
  | .SecretsDelete _ _ _ => none
  | .SecretsCreate _ _ _ => none
  | .InitializeIndex _ _ _ => none
  | .RemoveIndex _ _ _ => none

/-- The status written by an `updateStatus`. -/
def Event.statusWritten : Event → Option IndexStatusEnum
  | .StatusUpdate index => some index.Status.IndexStatus
  | .Get _ => none
  | .Update _ _ => none
  | .NamespacesGet _ _ => none
  | .ConfigMapsGet _ _ _ => none
  | .SecretsGet _ _ _ => none
  | .SecretsDelete _ _ _ => none
  | .SecretsCreate _ _ _ => none
  | .InitializeIndex _ _ _ => none
  | .RemoveIndex _ _ _ => none

/-- How an invocation of `InitializeIndex` ended. -/
def Event.initialized : Event → Option (Outcome (Option es.EsResult × GoError))
  | .InitializeIndex _ _ out => some out
  | .Get _ => none
  | .Update _ _ => none
  | .StatusUpdate _ => none
  | .NamespacesGet _ _ => none
  | .ConfigMapsGet _ _ _ => none
  | .SecretsGet _ _ _ => none
  | .SecretsDelete _ _ _ => none
  | .SecretsCreate _ _ _ => none
  | .RemoveIndex _ _ _ => none

/-- How an invocation of `RemoveIndex` ended. -/
def Event.removed : Event → Option (Outcome GoError)
  | .RemoveIndex _ _ out => some out
  | .Get _ => none
  | .Update _ _ => none
  | .StatusUpdate _ => none
  | .NamespacesGet _ _ => none
  | .ConfigMapsGet _ _ _ => none
  | .SecretsGet _ _ _ => none
  | .SecretsDelete _ _ _ => none
  | .SecretsCreate _ _ _ => none
  | .InitializeIndex _ _ _ => none

/-- The answer to a `Secrets.Create`. -/
def Event.secretCreated : Event → Option GoError
  | .SecretsCreate _ _ err => some err
  | .Get _ => none
  | .Update _ _ => none
  | .StatusUpdate _ => none
  | .NamespacesGet _ _ => none
  | .ConfigMapsGet _ _ _ => none
  | .SecretsGet _ _ _ => none
  | .SecretsDelete _ _ _ => none
  | .InitializeIndex _ _ _ => none
  | .RemoveIndex _ _ _ => none

/-- The secret handed to a `Secrets.Create`. -/
def Event.secretWritten : Event → Option Secret
  | .SecretsCreate _ secret _ => some secret
  | .Get _ => none
  | .Update _ _ => none
  | .StatusUpdate _ => none
  | .NamespacesGet _ _ => none
  | .ConfigMapsGet _ _ _ => none
  | .SecretsGet _ _ _ => none
  | .SecretsDelete _ _ _ => none
  | .InitializeIndex _ _ _ => none
  | .RemoveIndex _ _ _ => none

/-- The options handed to `RemoveIndex`. -/
def Event.removeOptions : Event → Option es.EsRemoveOptions
  | .RemoveIndex ops _ _ => some ops
  | .Get _ => none
  | .Update _ _ => none
  | .StatusUpdate _ => none
  | .NamespacesGet _ _ => none
  | .ConfigMapsGet _ _ _ => none
  | .SecretsGet _ _ _ => none
  | .SecretsDelete _ _ _ => none
  | .SecretsCreate _ _ _ => none
  | .InitializeIndex _ _ _ => none

/-- The answer to a `Namespaces.Get`. -/
def Event.namespaceLookedUp : Event → Option GoError
  | .NamespacesGet _ err => some err
  | .Get _ => none
  | .Update _ _ => none
  | .StatusUpdate _ => none
  | .ConfigMapsGet _ _ _ => none
  | .SecretsGet _ _ _ => none
  | .SecretsDelete _ _ _ => none
  | .SecretsCreate _ _ _ => none
  | .InitializeIndex _ _ _ => none
  | .RemoveIndex _ _ _ => none

/-- The answer to a `ConfigMaps.Get`. -/
def Event.configMapLookedUp : Event → Option GoError
  | .ConfigMapsGet _ _ err => some err
  | .Get _ => none
  | .Update _ _ => none
  | .StatusUpdate _ => none
  | .NamespacesGet _ _ => none
  | .SecretsGet _ _ _ => none
  | .SecretsDelete _ _ _ => none
  | .SecretsCreate _ _ _ => none
  | .InitializeIndex _ _ _ => none
  | .RemoveIndex _ _ _ => none

/-- The possible values of `Outcome.ret (some res, none)`: does the
invocation of `InitializeIndex` end with a result and no error. -/
def returnedResult (out : Outcome (Option es.EsResult × GoError)) : Bool :=
  match out with
  | .panicked => false
  | .ret (none, _) => false
  | .ret (some _, some _) => false
  | .ret (some _, none) => true

/-- The status values written by `updateStatus` during a run, in order. -/
def statusWrites (t : List Event) : List IndexStatusEnum := t.filterMap Event.statusWritten

/-- The run sent an `Update` of the object without the finalizer. -/
def finalizerRemoved (t : List Event) : Bool :=
  (t.filterMap Event.updated).any fun index => !ContainsFinalizer index finalizerName

/-- The run invoked `RemoveIndex` and it returned nil. -/
def removeIndexSucceeded (t : List Event) : Bool :=
  (t.filterMap Event.removed).any fun out => decide (out = .ret none)

/-- The run invoked `RemoveIndex`. -/
def removeIndexInvoked (t : List Event) : Bool := !(t.filterMap Event.removed).isEmpty

/-- The run invoked `InitializeIndex`. -/
def initializeIndexInvoked (t : List Event) : Bool := !(t.filterMap Event.initialized).isEmpty

/-- The run asked the cluster to create the credential secret. -/
def secretWritten (t : List Event) : Bool := !(t.filterMap Event.secretCreated).isEmpty

/-- The run looked the namespace up and the lookup succeeded. -/
def namespaceFound (t : List Event) : Bool :=
  (t.filterMap Event.namespaceLookedUp).any fun err => err.isNone

/-- The run looked the config map up and the lookup failed. -/
def configMapLookupFailed (t : List Event) : Bool :=
  (t.filterMap Event.configMapLookedUp).any fun err => err.isSome

/-- The run invoked `InitializeIndex` and it returned a result. -/
def initializeIndexSucceeded (t : List Event) : Bool :=
  (t.filterMap Event.initialized).any returnedResult

/-- The run asked the cluster to create the credential secret and the
creation succeeded. -/
def secretCreated (t : List Event) : Bool :=
  (t.filterMap Event.secretCreated).any fun err => err.isNone

/-- The six courses of a run of `provisionIndex`, as seen in the status values
written, the invocations of `InitializeIndex`, the answers to the secret
creation and the result: a failure before the backend is called, a panic in
`InitializeIndex`, an error from it, a nil result with a nil error, a failed
secret creation, and success. -/
def ProvisionCourse (ws : List IndexStatusEnum)
    (ini : List (Outcome (Option es.EsResult × GoError))) (sec : List GoError)
    (out : Outcome (Result × GoError)) : Prop :=
  (∃ e, ws = [Creating, Error] ∧ ini = [] ∧ sec = [] ∧ out = .ret ({}, some e)) ∨
  (ws = [Creating] ∧ ini = [.panicked] ∧ sec = [] ∧ out = .panicked) ∨
  (∃ x e, ws = [Creating, Error] ∧ ini = [.ret (x, some e)] ∧ sec = [] ∧
    out = .ret ({}, some e)) ∨
  (ws = [Creating, Created] ∧ ini = [.ret (none, none)] ∧ sec = [] ∧ out = .panicked) ∨
  (∃ res e, ws = [Creating, Created, Error] ∧ ini = [.ret (some res, none)] ∧ sec = [some e] ∧
    out = .ret ({}, some e)) ∨
  (∃ res, ws = [Creating, Created, Ready] ∧ ini = [.ret (some res, none)] ∧ sec = [none] ∧
    out = .ret ({}, none))

end controllers

/-! ## Sample runs -/

namespace samples

open es controllers esv1

/-- A plain 200 answer. -/
def ok200 : ApiResult := ⟨some ⟨200, "[200 OK]"⟩, none⟩

/-- A 404 answer. -/
def notFound404 : ApiResult := ⟨some ⟨404, "[404 Not Found] aliases [es-provisioner-billing-team-a] missing"⟩, none⟩

/-- A transport failure: no response, only an error. -/
def refused : ApiResult := ⟨none, some "dial tcp 10.0.0.7:9200: connect: connection refused"⟩

/-- A backend on which every call succeeds. -/
def backend : Backend :=
  { now := "2022-11-05T10:00:00Z"
    uuidName := "7d444840-9dc0-11d1-b245-5ffdce74fad2"
    uuidPassword := "6ba7b810-9dad-11d1-80b4-00c04fd430c8"
    NewClient := fun _ => none
    IndicesCreate := ok200
    IndicesPutAlias := ok200
    SecurityPutRole := ok200
    SecurityPutUser := ok200
    IndicesGet := ok200
    IndicesDeleteAlias := ok200
    IndicesDelete := ok200
    SecurityDeleteUser := ok200
    SecurityDeleteRole := ok200 }

/-- The service client built at start-up. -/
def esClient : EsClient :=
  { client := ⟨⟨["http://es:9200"], 3, true, [429, 502, 503, 504, 500], "elastic", "changeme"⟩⟩
    url := "http://es:9200" }

/-- The identifiers of a provisioned tenant. -/
def removeOps : EsRemoveOptions :=
  { Index := "es-provisioner-billing-team-a-2022-11-05"
    Alias := "es-provisioner-billing-team-a"
    Role := "billing-team-a-role"
    User := "billing-team-a-role-user" }

/-- Every resource is already gone: each delete is answered 404. -/
def goneBackend : Backend :=
  { backend with
    IndicesDeleteAlias := notFound404
    IndicesDelete := notFound404
    SecurityDeleteUser := notFound404
    SecurityDeleteRole := notFound404 }

/-- The alias delete cannot reach the backend. -/
def unreachableBackend : Backend := { backend with IndicesDeleteAlias := refused }

/-- The index of today exists already. -/
def conflict400 : ApiResult :=
  ⟨some ⟨400, "[400 Bad Request] resource_already_exists_exception: index already exists"⟩, none⟩

/-- An error response of another kind. -/
def forbidden403 : ApiResult := ⟨some ⟨403, "[403 Forbidden] security_exception"⟩, none⟩

/-- A second provisioning on the same day: index and alias exist. -/
def conflictBackend : Backend :=
  { backend with IndicesCreate := conflict400, IndicesPutAlias := conflict400 }

/-- The index creation is refused. -/
def forbiddenCreateBackend : Backend := { backend with IndicesCreate := forbidden403 }

/-- The index exists and the alias creation is refused. -/
def forbiddenAliasBackend : Backend :=
  { backend with IndicesCreate := conflict400, IndicesPutAlias := forbidden403 }

/-- The options the controller derives for application `billing` in
namespace `team-a`, no explicit name. -/
def setupOps : EsSetupOptions :=
  { Shards := 2, RefreshInterval := "", Replicas := 1, Namespace := "team-a", IndexName := "",
    App := "billing", Spec := "", Analyzers := "", Properties := "", Source := false }

/-- The reconcile request of the tenant. -/
def request : Request := { Namespace := "team-a", Name := "billing" }

/-- A request object as first seen: no finalizer, no deletion timestamp, no status. -/
def freshIndex : Index :=
  { Name := "billing", Namespace := "team-a", DeletionTimestamp := none, Finalizers := []
    Spec :=
      { Name := "", Application := "billing", ConfigMap := "", NumberOfShards := 2
        NumberOfReplicas := 1, RefreshInterval := "", Analyzers := "", SourceEnabled := false
        Properties := "" }
    Status := ⟨""⟩ }

/-- The data of the credential secret of the tenant. -/
def storedSecret : GoMap :=
  [("username", "billing-team-a-role-user"),
   ("password", "6ba7b810-9dad-11d1-80b4-00c04fd430c8"),
   ("index", "es-provisioner-billing-team-a"),
   ("_index", "es-provisioner-billing-team-a-2022-11-05"),
   ("role", "billing-team-a-role")]

/-- A cluster on which every call succeeds. -/
def cluster : Cluster :=
  { Get := .found freshIndex
    Update := none
    NamespacesGet := ("team-a", none)
    ConfigMapsGet := ([], none)
    SecretsGet := (storedSecret, none)
    SecretsDelete := none
    SecretsDeleteExisting := some "secrets \"es-provisioner-index-secret\" not found"
    SecretsCreate := none }

/-- First reconcile of a fresh request, everything succeeds. -/
def reconciler : IndexReconciler := ⟨esClient, cluster, backend⟩

/-- The request after provisioning, marked for deletion. -/
def deletingIndex : Index :=
  { freshIndex with
    DeletionTimestamp := some 63803239200
    Finalizers := [finalizerName]
    Status := ⟨Ready⟩ }

/-- Teardown in which the secret is read, the four deletes succeed and the
secret is deleted. -/
def teardownReconciler : IndexReconciler :=
  ⟨esClient, { cluster with Get := .found deletingIndex }, backend⟩

/-- Teardown of a request whose credential secret does not exist. -/
def missingSecretReconciler : IndexReconciler :=
  ⟨esClient,
    { cluster with
      Get := .found deletingIndex
      SecretsGet := ([], some "secrets \"es-provisioner-index-secret\" not found") },
    backend⟩

/-- Teardown in which the backend rejects the credentials of the service. -/
def unauthorizedReconciler : IndexReconciler :=
  ⟨esClient, { cluster with Get := .found deletingIndex },
    { backend with
      IndicesDeleteAlias := ⟨some ⟨401, "[401 Unauthorized] security_exception"⟩, none⟩ }⟩

/-- First reconcile of a fresh request while the backend cannot be reached:
the index creation gets no response. -/
def unreachableReconciler : IndexReconciler :=
  ⟨esClient, cluster, { backend with IndicesCreate := refused }⟩

/-- A request that names a config map. -/
def mappedIndex : Index :=
  { freshIndex with Spec := { freshIndex.Spec with ConfigMap := "billing-mapping" } }

/-- First reconcile of a request whose config map exists but has no
`mapping.json` key. -/
def missingKeyReconciler : IndexReconciler :=
  ⟨esClient,
    { cluster with
      Get := .found mappedIndex
      ConfigMapsGet := ([("settings.json", "number_of_shards: 2")], none) },
    backend⟩

/-- The request after a failed provisioning: finalizer attached, status `Error`. -/
def erroredIndex : Index :=
  { freshIndex with Finalizers := [finalizerName], Status := ⟨Error⟩ }

/-- The reconcile that follows a failed provisioning; the backend is healthy again. -/
def retryReconciler : IndexReconciler :=
  ⟨esClient, { cluster with Get := .found erroredIndex }, backend⟩

/-- A request marked for deletion before it was ever reconciled: another
controller's finalizer keeps the object, ours is absent, the status is unset. -/
def orphanIndex : Index :=
  { freshIndex with DeletionTimestamp := some 63803239200, Finalizers := ["foregroundDeletion"] }

/-- Reconcile of that request on a healthy cluster and backend. -/
def orphanReconciler : IndexReconciler :=
  ⟨esClient, { cluster with Get := .found orphanIndex }, backend⟩

/-- The result of provisioning application `billing` in namespace `team-a`. -/
def esResult : EsResult :=
  { UserName := "billing-team-a-role-user"
    Password := "6ba7b810-9dad-11d1-80b4-00c04fd430c8"
    Role := "billing-team-a-role"
    Index := "es-provisioner-billing-team-a-2022-11-05"
    Alias := "es-provisioner-billing-team-a" }

/-- No client can be built: the address has a port that is not a number, so
every `elasticsearch.NewClient` fails. -/
def failingConnect : Backend :=
  { backend with
    NewClient := fun _ =>
      some ("cannot create client: cannot parse url: " ++
        "parse \"http://es:port\": invalid port \":port\" after host") }

/-- The first two connection attempts fail, the third succeeds. -/
def thirdTimeLucky : Backend :=
  { backend with
    NewClient := fun i => if i < 2 then some "cannot create client: cannot parse url" else none }

/-- Connection options with thirty-three attempts and an address that cannot
be parsed. -/
def manyRetries : EsOptions :=
  { Connection := "http://es:port", Retries := 33, Username := "elastic", Password := "changeme" }

/-- Connection options with five attempts and an address that cannot be parsed. -/
def badAddress : EsOptions :=
  { Connection := "http://es:port", Retries := 5, Username := "elastic", Password := "changeme" }

/-- Connection options with five attempts. -/
def fiveRetries : EsOptions :=
  { Connection := "http://es:9200", Retries := 5, Username := "elastic", Password := "changeme" }

/-- The conversion of an out-of-range float on amd64. -/
def hugeAmd64 : Int → Int := fun _ => -9223372036854775808

/-- The backend cannot be reached: no call gets a response. -/
def downBackend : Backend :=
  { backend with
    IndicesCreate := refused
    IndicesPutAlias := refused
    SecurityPutRole := refused
    SecurityPutUser := refused
    IndicesGet := refused
    IndicesDeleteAlias := refused
    IndicesDelete := refused
    SecurityDeleteUser := refused
    SecurityDeleteRole := refused }

end samples

/-! ## Lemmas -/

theorem Run.pure_eq {ε α : Type} (a : α) : (pure a : Run ε α) = ⟨[], .ret a⟩ := rfl

theorem Run.bind_eq {ε α β : Type} (m : Run ε α) (f : α → Run ε β) :
    (m >>= f) = Run.bind m f := rfl

theorem Run.bind_ret {ε α β : Type} (t : List ε) (a : α) (f : α → Run ε β) :
    Run.bind ⟨t, .ret a⟩ f = ⟨t ++ (f a).trace, (f a).out⟩ := rfl

theorem Run.bind_panicked {ε α β : Type} (t : List ε) (f : α → Run ε β) :
    Run.bind ⟨t, .panicked⟩ f = ⟨t, .panicked⟩ := rfl

namespace es

theorem deleteAlias_eq (c : EsClient) (b : Backend) (index al : String) :
    deleteAlias c b index al =
      ⟨[.Do c.client (.IndicesDeleteAlias index al)],
        stepOutcome "Cannot delete Alias: " b.IndicesDeleteAlias⟩ := by
  rcases h : b.IndicesDeleteAlias with ⟨_ | r, _ | e⟩
  case mk.some.none =>
    cases hE : r.IsError <;>
      simp [deleteAlias, stepOutcome, perform, deferBodyClose, Run.bind_eq, Run.pure_eq,
        Run.bind_ret, h, hE]
  all_goals
    simp [deleteAlias, stepOutcome, perform, deferBodyClose, Run.bind_eq, Run.pure_eq, Run.panic,
      Run.bind_ret, Run.bind_panicked, h]

theorem deleteIndex_eq (c : EsClient) (b : Backend) (index : String) :
    deleteIndex c b index =
      ⟨[.Do c.client (.IndicesDelete index)],
        stepOutcome "Cannot delete index: " b.IndicesDelete⟩ := by
  rcases h : b.IndicesDelete with ⟨_ | r, _ | e⟩
  case mk.some.none =>
    cases hE : r.IsError <;>
      simp [deleteIndex, stepOutcome, perform, deferBodyClose, Run.bind_eq, Run.pure_eq,
        Run.bind_ret, h, hE]
  all_goals
    simp [deleteIndex, stepOutcome, perform, deferBodyClose, Run.bind_eq, Run.pure_eq, Run.panic,
      Run.bind_ret, Run.bind_panicked, h]

theorem deleteUser_eq (c : EsClient) (b : Backend) (user : String) :
    deleteUser c b user =
      ⟨[.Do c.client (.SecurityDeleteUser user)],
        stepOutcome "Cannot delete User: " b.SecurityDeleteUser⟩ := by
  rcases h : b.SecurityDeleteUser with ⟨_ | r, _ | e⟩
  case mk.some.none =>
    cases hE : r.IsError <;>
      simp [deleteUser, stepOutcome, perform, deferBodyClose, Run.bind_eq, Run.pure_eq,
        Run.bind_ret, h, hE]
  all_goals
    simp [deleteUser, stepOutcome, perform, deferBodyClose, Run.bind_eq, Run.pure_eq, Run.panic,
      Run.bind_ret, Run.bind_panicked, h]

theorem deleteRole_eq (c : EsClient) (b : Backend) (role : String) :
    deleteRole c b role =
      ⟨[.Do c.client (.SecurityDeleteRole role)],
        stepOutcome "Cannot delete Role: " b.SecurityDeleteRole⟩ := by
  rcases h : b.SecurityDeleteRole with ⟨_ | r, _ | e⟩
  case mk.some.none =>
    cases hE : r.IsError <;>
      simp [deleteRole, stepOutcome, perform, deferBodyClose, Run.bind_eq, Run.pure_eq,
        Run.bind_ret, h, hE]
  all_goals
    simp [deleteRole, stepOutcome, perform, deferBodyClose, Run.bind_eq, Run.pure_eq, Run.panic,
      Run.bind_ret, Run.bind_panicked, h]

theorem stepOutcome_eq_ret_none (what : String) (a : ApiResult) :
    stepOutcome what a = .ret none ↔ a.succeeded = true := by
  rcases a with ⟨_ | r, _ | e⟩
  case mk.some.none => cases hE : r.IsError <;> simp [stepOutcome, ApiResult.succeeded, hE]
  all_goals simp [stepOutcome, ApiResult.succeeded]

/-- The run of `RemoveIndex`, step by step. -/
theorem RemoveIndex_eq (c : EsClient) (b : Backend) (ops : EsRemoveOptions) :
    RemoveIndex c b ops =
      match stepOutcome "Cannot delete Alias: " b.IndicesDeleteAlias with
      | .panicked => ⟨(deleteCalls c ops).take 1, .panicked⟩
      | .ret (some e) => ⟨(deleteCalls c ops).take 1, .ret (some e)⟩
      | .ret none =>
      match stepOutcome "Cannot delete index: " b.IndicesDelete with
      | .panicked => ⟨(deleteCalls c ops).take 2, .panicked⟩
      | .ret (some e) => ⟨(deleteCalls c ops).take 2, .ret (some e)⟩
      | .ret none =>
      match stepOutcome "Cannot delete User: " b.SecurityDeleteUser with
      | .panicked => ⟨(deleteCalls c ops).take 3, .panicked⟩
      | .ret (some e) => ⟨(deleteCalls c ops).take 3, .ret (some e)⟩
      | .ret none =>
      match stepOutcome "Cannot delete Role: " b.SecurityDeleteRole with
      | .panicked => ⟨deleteCalls c ops, .panicked⟩
      | .ret (some e) => ⟨deleteCalls c ops, .ret (some e)⟩
      | .ret none => ⟨deleteCalls c ops, .ret none⟩ := by
  simp only [RemoveIndex, deleteAlias_eq, deleteIndex_eq, deleteUser_eq, deleteRole_eq,
    Run.bind_eq]
  rcases stepOutcome "Cannot delete Alias: " b.IndicesDeleteAlias with (_ | e) | _ <;>
    simp [Run.bind_ret, Run.bind_panicked, Run.pure_eq, deleteCalls]
  rcases stepOutcome "Cannot delete index: " b.IndicesDelete with (_ | e) | _ <;>
    simp [Run.bind_ret, Run.bind_panicked, Run.pure_eq, deleteCalls]
  rcases stepOutcome "Cannot delete User: " b.SecurityDeleteUser with (_ | e) | _ <;>
    simp [Run.bind_ret, Run.bind_panicked, Run.pure_eq, deleteCalls]
  rcases stepOutcome "Cannot delete Role: " b.SecurityDeleteRole with (_ | e) | _ <;>
    simp [Run.bind_ret, Run.bind_panicked, Run.pure_eq, deleteCalls]

end es

namespace es

/-- Whatever the backend answers, the deletes issued by `RemoveIndex` are an
initial segment of alias, index, user, role, and it returns nil exactly when
all four were issued and succeeded. -/
theorem RemoveIndex_calls_in_order (c : EsClient) (b : Backend) (ops : EsRemoveOptions) :
    (RemoveIndex c b ops).trace <+: deleteCalls c ops ∧
    ((RemoveIndex c b ops).out = .ret none ↔
      ((RemoveIndex c b ops).trace = deleteCalls c ops ∧
        b.IndicesDeleteAlias.succeeded = true ∧ b.IndicesDelete.succeeded = true ∧
        b.SecurityDeleteUser.succeeded = true ∧ b.SecurityDeleteRole.succeeded = true)) := by
  rw [RemoveIndex_eq]
  simp only [← stepOutcome_eq_ret_none "Cannot delete Alias: " b.IndicesDeleteAlias,
    ← stepOutcome_eq_ret_none "Cannot delete index: " b.IndicesDelete,
    ← stepOutcome_eq_ret_none "Cannot delete User: " b.SecurityDeleteUser,
    ← stepOutcome_eq_ret_none "Cannot delete Role: " b.SecurityDeleteRole]
  rcases stepOutcome "Cannot delete Alias: " b.IndicesDeleteAlias with (_ | e) | _ <;>
    simp [List.take_prefix]
  rcases stepOutcome "Cannot delete index: " b.IndicesDelete with (_ | e) | _ <;>
    simp [List.take_prefix]
  rcases stepOutcome "Cannot delete User: " b.SecurityDeleteUser with (_ | e) | _ <;>
    simp [List.take_prefix]
  rcases stepOutcome "Cannot delete Role: " b.SecurityDeleteRole with (_ | e) | _ <;>
    simp [List.take_prefix]

/-- When `RemoveIndex` returns an error, it is the error of the first helper
that did not return nil, the helpers before it returned nil, and no delete
was issued after it. -/
theorem RemoveIndex_returns_first_error (c : EsClient) (b : Backend) (ops : EsRemoveOptions)
    (e : String) (h : (RemoveIndex c b ops).out = .ret (some e)) :
    (stepOutcome "Cannot delete Alias: " b.IndicesDeleteAlias = .ret (some e) ∧
      (RemoveIndex c b ops).trace = (deleteCalls c ops).take 1) ∨
    (stepOutcome "Cannot delete Alias: " b.IndicesDeleteAlias = .ret none ∧
      stepOutcome "Cannot delete index: " b.IndicesDelete = .ret (some e) ∧
      (RemoveIndex c b ops).trace = (deleteCalls c ops).take 2) ∨
    (stepOutcome "Cannot delete Alias: " b.IndicesDeleteAlias = .ret none ∧
      stepOutcome "Cannot delete index: " b.IndicesDelete = .ret none ∧
      stepOutcome "Cannot delete User: " b.SecurityDeleteUser = .ret (some e) ∧
      (RemoveIndex c b ops).trace = (deleteCalls c ops).take 3) ∨
    (stepOutcome "Cannot delete Alias: " b.IndicesDeleteAlias = .ret none ∧
      stepOutcome "Cannot delete index: " b.IndicesDelete = .ret none ∧
      stepOutcome "Cannot delete User: " b.SecurityDeleteUser = .ret none ∧
      stepOutcome "Cannot delete Role: " b.SecurityDeleteRole = .ret (some e) ∧
      (RemoveIndex c b ops).trace = deleteCalls c ops) := by
  revert h
  rw [RemoveIndex_eq]
  rcases stepOutcome "Cannot delete Alias: " b.IndicesDeleteAlias with (_ | e1) | _ <;> simp
  rcases stepOutcome "Cannot delete index: " b.IndicesDelete with (_ | e1) | _ <;> simp
  rcases stepOutcome "Cannot delete User: " b.SecurityDeleteUser with (_ | e1) | _ <;> simp
  rcases stepOutcome "Cannot delete Role: " b.SecurityDeleteRole with (_ | e1) | _ <;> simp

theorem hasStatus_404_not_succeeded (a : ApiResult) (h : a.hasStatus 404 = true) :
    a.succeeded = false := by
  rcases a with ⟨_ | r, _ | e⟩ <;> simp_all [ApiResult.hasStatus, ApiResult.succeeded, Response.IsError]

end es

namespace es

theorem createRole_eq (c : EsClient) (b : Backend) (index al app ns : String) :
    createRole c b index al app ns =
      ⟨[.Do c.client (.SecurityPutRole (app ++ "-" ++ ns ++ "-role")
          ⟨.ROLE_TEMPLATE, [.str index, .str al]⟩)],
        match stepOutcome "Cannot create role: " b.SecurityPutRole with
        | .panicked => .panicked
        | .ret (some e) => .ret ("", some e)
        | .ret none => .ret (app ++ "-" ++ ns ++ "-role", none)⟩ := by
  rcases h : b.SecurityPutRole with ⟨_ | r, _ | e⟩
  case mk.some.none =>
    cases hE : r.IsError <;>
      simp [createRole, stepOutcome, perform, deferBodyClose, Run.bind_eq, Run.pure_eq,
        Run.bind_ret, h, hE]
  all_goals
    simp [createRole, stepOutcome, perform, deferBodyClose, Run.bind_eq, Run.pure_eq, Run.panic,
      Run.bind_ret, Run.bind_panicked, h]

theorem createUser_eq (c : EsClient) (b : Backend) (index role : String) :
    createUser c b index role =
      ⟨[.Do c.client (.SecurityPutUser (role ++ "-user")
          ⟨.USER_TEMPLATE, [.str b.uuidPassword, .str role, .str (role ++ "-user")]⟩)],
        match stepOutcome "Cannot create user: " b.SecurityPutUser with
        | .panicked => .panicked
        | .ret (some e) => .ret ("", "", some e)
        | .ret none => .ret (role ++ "-user", b.uuidPassword, none)⟩ := by
  rcases h : b.SecurityPutUser with ⟨_ | r, _ | e⟩
  case mk.some.none =>
    cases hE : r.IsError <;>
      simp [createUser, stepOutcome, perform, deferBodyClose, Run.bind_eq, Run.pure_eq,
        Run.bind_ret, h, hE]
  all_goals
    simp [createUser, stepOutcome, perform, deferBodyClose, Run.bind_eq, Run.pure_eq, Run.panic,
      Run.bind_ret, Run.bind_panicked, h]

theorem testIndex_eq (b : Backend) (cl : Client) (index : String) :
    testIndex b (some cl) index =
      ⟨[.Do cl (.IndicesGet index)], stepOutcome "Cannot test index: " b.IndicesGet⟩ := by
  rcases h : b.IndicesGet with ⟨_ | r, _ | e⟩
  case mk.some.none =>
    cases hE : r.IsError <;>
      simp [testIndex, stepOutcome, perform, deferBodyClose, Run.bind_eq, Run.pure_eq,
        Run.bind_ret, h, hE]
  all_goals
    simp [testIndex, stepOutcome, perform, deferBodyClose, Run.bind_eq, Run.pure_eq, Run.panic,
      Run.bind_ret, Run.bind_panicked, h]

theorem addAlias_eq (c : EsClient) (b : Backend) (indexName aliasName : String) :
    addAlias c b indexName aliasName =
      ⟨[.Do c.client (.IndicesPutAlias indexName aliasName)],
        match tolerantOutcome "Cannot create alias: " b.IndicesPutAlias with
        | .panicked => .panicked
        | .ret (some e) => .ret ("", "", some e)
        | .ret none => .ret (indexName, aliasName, none)⟩ := by
  rcases h : b.IndicesPutAlias with ⟨_ | r, _ | e⟩
  case mk.some.none =>
    cases hE : r.IsError <;>
    cases hC : strings.Contains r.String "resource_already_exists_exception" <;>
      simp [addAlias, tolerantOutcome, perform, deferBodyClose, Run.bind_eq, Run.pure_eq,
        Run.bind_ret, h, hE, hC]
  all_goals
    simp [addAlias, tolerantOutcome, perform, deferBodyClose, Run.bind_eq, Run.pure_eq, Run.panic,
      Run.bind_ret, Run.bind_panicked, h]

theorem createIndex_eq (c : EsClient) (b : Backend) (name schema : String) (shards replicas : Int)
    (refresh analyzers : String) (source : Bool) (props : String) :
    createIndex c b name schema shards replicas refresh analyzers source props =
      match tolerantOutcome "Cannot create index: " b.IndicesCreate with
      | .panicked =>
        ⟨[.Do c.client (.IndicesCreate (name ++ "-" ++ b.now.take 10)
            (createIndexBody schema shards replicas refresh analyzers source props))], .panicked⟩
      | .ret (some e) =>
        ⟨[.Do c.client (.IndicesCreate (name ++ "-" ++ b.now.take 10)
            (createIndexBody schema shards replicas refresh analyzers source props))],
          .ret ("", "", some e)⟩
      | .ret none =>
        ⟨[.Do c.client (.IndicesCreate (name ++ "-" ++ b.now.take 10)
            (createIndexBody schema shards replicas refresh analyzers source props)),
          .Do c.client (.IndicesPutAlias (name ++ "-" ++ b.now.take 10) name)],
          match tolerantOutcome "Cannot create alias: " b.IndicesPutAlias with
          | .panicked => .panicked
          | .ret (some e) => .ret ("", "", some e)
          | .ret none => .ret (name ++ "-" ++ b.now.take 10, name, none)⟩ := by
  rcases h : b.IndicesCreate with ⟨_ | r, _ | e⟩
  case mk.some.none =>
    cases hE : r.IsError <;>
    cases hC : strings.Contains r.String "resource_already_exists_exception" <;>
      simp [createIndex, addAlias_eq, createIndexBody, tolerantOutcome, perform, deferBodyClose,
        Run.bind_eq, Run.pure_eq, Run.bind_ret, h, hE, hC]
  all_goals
    simp [createIndex, createIndexBody, tolerantOutcome, perform, deferBodyClose, Run.bind_eq,
      Run.pure_eq, Run.panic, Run.bind_ret, Run.bind_panicked, h]

end es

namespace es

/-- The single connection attempt `InitializeIndex` makes for the new user. -/
theorem connectEsWithRetry_once (c : EsClient) (b : Backend) (userName pw : String) (sleep : Int) :
    connectEsWithRetry b
        { Connection := c.url, Retries := 1, Username := userName, Password := pw } sleep =
      ⟨[.NewClient (userConfig c userName pw)],
        match b.NewClient 0 with
        | some _ =>
          .ret (none, some ("after " ++ toString (1 : Int) ++ " attempts, last error: %!s(<nil>)"))
        | none => .ret (some ⟨userConfig c userName pw⟩, none)⟩ := by
  have h1 : (1 : Int).toNat = 1 := rfl
  cases h : b.NewClient 0 <;>
    simp [connectEsWithRetry, connectEsWithRetryLoop, connectEs, userConfig, h1, h, Run.bind_eq,
      Run.pure_eq, Run.emit, Run.bind_ret]

/-- The run of `InitializeIndex`, step by step. -/
theorem InitializeIndex_eq (c : EsClient) (b : Backend) (ops : EsSetupOptions) :
    InitializeIndex c b ops =
      match tolerantOutcome "Cannot create index: " b.IndicesCreate with
      | .panicked => ⟨(provisionCalls c b ops).take 1, .panicked⟩
      | .ret (some e) => ⟨(provisionCalls c b ops).take 1, .ret (none, some e)⟩
      | .ret none =>
      match tolerantOutcome "Cannot create alias: " b.IndicesPutAlias with
      | .panicked => ⟨(provisionCalls c b ops).take 2, .panicked⟩
      | .ret (some e) => ⟨(provisionCalls c b ops).take 2, .ret (none, some e)⟩
      | .ret none =>
      match stepOutcome "Cannot create role: " b.SecurityPutRole with
      | .panicked => ⟨(provisionCalls c b ops).take 3, .panicked⟩
      | .ret (some e) => ⟨(provisionCalls c b ops).take 3, .ret (none, some e)⟩
      | .ret none =>
      match stepOutcome "Cannot create user: " b.SecurityPutUser with
      | .panicked => ⟨(provisionCalls c b ops).take 4, .panicked⟩
      | .ret (some e) => ⟨(provisionCalls c b ops).take 4, .ret (none, some e)⟩
      | .ret none =>
      match b.NewClient 0 with
      | some _ =>
        ⟨(provisionCalls c b ops).take 5,
          .ret (none,
            some ("after " ++ toString (1 : Int) ++ " attempts, last error: %!s(<nil>)"))⟩
      | none =>
      match stepOutcome "Cannot test index: " b.IndicesGet with
      | .panicked => ⟨provisionCalls c b ops, .panicked⟩
      | .ret (some e) => ⟨provisionCalls c b ops, .ret (none, some e)⟩
      | .ret none => ⟨provisionCalls c b ops, .ret (some (provisionResult b ops), none)⟩ := by
  simp only [InitializeIndex, createIndex_eq, createRole_eq, createUser_eq,
    connectEsWithRetry_once, Run.bind_eq]
  rcases tolerantOutcome "Cannot create index: " b.IndicesCreate with (_ | e) | _ <;>
    simp [Run.bind_ret, Run.bind_panicked, Run.pure_eq, provisionCalls, resolvedName]
  rcases tolerantOutcome "Cannot create alias: " b.IndicesPutAlias with (_ | e) | _ <;>
    simp [Run.bind_ret, Run.bind_panicked, Run.pure_eq]
  rcases stepOutcome "Cannot create role: " b.SecurityPutRole with (_ | e) | _ <;>
    simp [Run.bind_ret, Run.bind_panicked, Run.pure_eq]
  rcases stepOutcome "Cannot create user: " b.SecurityPutUser with (_ | e) | _ <;>
    simp [Run.bind_ret, Run.bind_panicked, Run.pure_eq]
  cases b.NewClient 0 <;>
    simp [Run.bind_ret, Run.bind_panicked, Run.pure_eq, testIndex_eq]
  rcases stepOutcome "Cannot test index: " b.IndicesGet with (_ | e) | _ <;>
    simp [Run.bind_ret, Run.bind_panicked, Run.pure_eq, provisionResult, resolvedName]

end es

namespace es

theorem tolerantOutcome_of_tolerated (what : String) (a : ApiResult)
    (h : a.succeeded = true ∨ a.conflict = true) : tolerantOutcome what a = .ret none := by
  rcases a with ⟨_ | r, _ | e⟩
  case mk.some.none =>
    cases hE : r.IsError <;>
    cases hC : strings.Contains r.String "resource_already_exists_exception" <;>
      simp_all [tolerantOutcome, ApiResult.succeeded, ApiResult.conflict]
  all_goals simp_all [ApiResult.succeeded, ApiResult.conflict]

theorem tolerantOutcome_of_otherErrorResponse (what : String) (a : ApiResult)
    (h : a.otherErrorResponse = true) : ∃ e, tolerantOutcome what a = .ret (some e) := by
  rcases a with ⟨_ | r, _ | e⟩
  case mk.some.none =>
    cases hE : r.IsError <;>
    cases hC : strings.Contains r.String "resource_already_exists_exception" <;>
      simp_all [tolerantOutcome, ApiResult.otherErrorResponse]
  all_goals simp_all [ApiResult.otherErrorResponse]

theorem tolerantOutcome_eq_ret_none (what : String) (a : ApiResult) :
    tolerantOutcome what a = .ret none ↔ (a.succeeded = true ∨ a.conflict = true) := by
  rcases a with ⟨_ | r, _ | e⟩
  case mk.some.none =>
    cases hE : r.IsError <;>
    cases hC : strings.Contains r.String "resource_already_exists_exception" <;>
      simp_all [tolerantOutcome, ApiResult.succeeded, ApiResult.conflict]
  all_goals simp_all [tolerantOutcome, ApiResult.succeeded, ApiResult.conflict]

theorem take_ten_append (d rest : String) (h : d.length = 10) : (d ++ rest).take 10 = d := by
  rw [String.take_eq]
  have h2 : d.data.length = 10 := h
  simp [String.data_append, List.take_append_of_le_length, h2]

end es

namespace controllers

open esv1

theorem updateStatus_eq (r : IndexReconciler) (index : Index) (s : IndexStatusEnum) :
    updateStatus r index s =
      ⟨[.StatusUpdate { index with Status := ⟨s⟩ }], .ret { index with Status := ⟨s⟩ }⟩ := rfl

/-- What a run of `provisionIndex` shows: it sends no `Update` and never calls
`RemoveIndex`, and it follows one of the six courses. -/
theorem provisionIndex_observed (r : IndexReconciler) (index : Index) (req : Request) :
    (provisionIndex r index req).trace.filterMap Event.updated = [] ∧
    (provisionIndex r index req).trace.filterMap Event.removed = [] ∧
    ProvisionCourse (statusWrites (provisionIndex r index req).trace)
      ((provisionIndex r index req).trace.filterMap Event.initialized)
      ((provisionIndex r index req).trace.filterMap Event.secretCreated)
      (provisionIndex r index req).out := by
  rcases r with ⟨c, ⟨get, upd, ⟨ns, nserr⟩, ⟨cm, cmerr⟩, ⟨sec, secerr⟩, sdel, sdelx, screate⟩, b⟩
  simp only [provisionIndex, getConfigMap, createSecret, Run.bind_eq, Run.pure_eq, Run.emit,
    Run.panic, updateStatus_eq, Run.bind_ret]
  cases nserr
  case some e =>
    simp [ProvisionCourse, statusWrites, Event.updated, Event.removed, Event.statusWritten,
      Event.initialized, Event.secretCreated]
  case none =>
    by_cases h4 : index.Spec.ConfigMap = ""
    · simp only [h4, ne_eq, not_true_eq_false, if_false, Run.bind_ret]
      generalize es.InitializeIndex _ _ _ = call
      rcases call with ⟨t, ⟨_ | res, _ | e⟩ | _⟩ <;> cases screate <;>
        simp [ProvisionCourse, statusWrites, Event.updated, Event.removed, Event.statusWritten,
          Event.initialized, Event.secretCreated, Run.bind_ret, Run.bind_panicked]
    · simp only [h4, ne_eq, not_false_eq_true, if_true, Run.bind_ret]
      rcases cmerr with _ | e
      · by_cases h5 : GoMap.get cm configMapKey = ""
        · simp only [h5, if_true, Run.bind_ret]
          generalize es.InitializeIndex _ _ _ = call
          rcases call with ⟨t, ⟨_ | res, _ | e⟩ | _⟩ <;> cases screate <;>
            simp [ProvisionCourse, statusWrites, Event.updated, Event.removed, Event.statusWritten,
              Event.initialized, Event.secretCreated, Run.bind_ret, Run.bind_panicked]
        · simp only [h5, if_false, Run.bind_ret]
          generalize es.InitializeIndex _ _ _ = call
          rcases call with ⟨t, ⟨_ | res, _ | e⟩ | _⟩ <;> cases screate <;>
            simp [ProvisionCourse, statusWrites, Event.updated, Event.removed, Event.statusWritten,
              Event.initialized, Event.secretCreated, Run.bind_ret, Run.bind_panicked]
      · simp [ProvisionCourse, statusWrites, Event.updated, Event.removed, Event.statusWritten,
          Event.initialized, Event.secretCreated, Run.bind_ret]

end controllers

namespace controllers

open esv1

/-- What a run of the controller's `deleteIndex` shows: no `Update`, no status
write, no provisioning and no secret creation. -/
theorem deleteIndex_observed (r : IndexReconciler) (index : Index) :
    (deleteIndex r index).trace.filterMap Event.updated = [] ∧
    (deleteIndex r index).trace.filterMap Event.statusWritten = [] ∧
    (deleteIndex r index).trace.filterMap Event.initialized = [] ∧
    (deleteIndex r index).trace.filterMap Event.secretCreated = [] := by
  rcases r with ⟨c, ⟨get, upd, ⟨ns, nserr⟩, ⟨cm, cmerr⟩, ⟨sec, secerr⟩, sdel, sdelx, screate⟩, b⟩
  simp only [deleteIndex, Run.bind_eq, Run.pure_eq, Run.emit, Run.bind_ret]
  rcases secerr with _ | e
  · simp only [Run.bind_ret]
    generalize es.RemoveIndex _ _ _ = call
    rcases call with ⟨t, (_ | e) | _⟩ <;> cases sdel <;>
      simp [Event.updated, Event.statusWritten, Event.initialized, Event.secretCreated,
        Run.bind_ret, Run.bind_panicked]
  · simp [Event.updated, Event.statusWritten, Event.initialized, Event.secretCreated]

/-- The run of `setFinalizer`, branch by branch. -/
theorem setFinalizer_eq (r : IndexReconciler) (index : Index) :
    setFinalizer r index =
      if IsZero index.DeletionTimestamp = true then
        if ContainsFinalizer index finalizerName = true then ⟨[], .ret (index, none)⟩
        else
          ⟨[.Update (AddFinalizer index finalizerName) r.cluster.Update],
            .ret (AddFinalizer index finalizerName, r.cluster.Update)⟩
      else if ContainsFinalizer index finalizerName = true then
        match (deleteIndex r index).out with
        | .panicked => ⟨(deleteIndex r index).trace, .panicked⟩
        | .ret none => ⟨(deleteIndex r index).trace, .panicked⟩
        | .ret (some msg) =>
          if strings.Contains msg "not found" = true then
            ⟨(deleteIndex r index).trace ++
                [.Update (RemoveFinalizer index finalizerName) r.cluster.Update],
              .ret (RemoveFinalizer index finalizerName, r.cluster.Update)⟩
          else ⟨(deleteIndex r index).trace, .ret (index, some msg)⟩
      else ⟨[], .ret (index, none)⟩ := by
  unfold setFinalizer
  cases hz : IsZero index.DeletionTimestamp <;>
  cases hf : ContainsFinalizer index finalizerName <;>
  cases hu : r.cluster.Update <;>
    simp [Run.bind_eq, Run.pure_eq, Run.emit, Run.bind_ret]
  all_goals
    rcases deleteIndex r index with ⟨t, (_ | msg) | _⟩ <;>
      simp [Run.bind_ret, Run.bind_panicked, Run.panic]
  all_goals
    cases strings.Contains msg "not found" <;> simp [hu]

/-- The run of `Reconcile`, branch by branch. -/
theorem Reconcile_eq (r : IndexReconciler) (req : Request) :
    Reconcile r req =
      match r.cluster.Get with
      | .notFound _ => ⟨[.Get req], .ret ({}, none)⟩
      | .failed e => ⟨[.Get req], .ret ({}, some e)⟩
      | .found index =>
        match (setFinalizer r index).out with
        | .panicked => ⟨.Get req :: (setFinalizer r index).trace, .panicked⟩
        | .ret (index', some e) =>
          ⟨.Get req :: ((setFinalizer r index).trace ++
              [.StatusUpdate { index' with Status := ⟨Error⟩ }]), .ret ({}, some e)⟩
        | .ret (index', none) =>
          if index'.Status.IndexStatus = "" then
            ⟨.Get req :: ((setFinalizer r index).trace ++ (provisionIndex r index' req).trace),
              (provisionIndex r index' req).out⟩
          else ⟨.Get req :: (setFinalizer r index).trace, .ret ({}, none)⟩ := by
  unfold Reconcile
  rcases r.cluster.Get with index | msg | msg <;>
    simp [Run.bind_eq, Run.pure_eq, Run.emit, Run.bind_ret]
  rcases setFinalizer r index with ⟨t, ⟨index', _ | e⟩ | _⟩ <;>
    simp [Run.bind_ret, Run.bind_panicked, updateStatus_eq]
  by_cases h : index'.Status.IndexStatus = "" <;> simp [h]

end controllers

namespace controllers

open esv1

theorem ContainsFinalizer_RemoveFinalizer (index : Index) (f : String) :
    ContainsFinalizer (RemoveFinalizer index f) f = false := by
  simp [ContainsFinalizer, RemoveFinalizer]

theorem AddFinalizer_Status (index : Index) (f : String) :
    (AddFinalizer index f).Status = index.Status := by
  unfold AddFinalizer
  split <;> rfl

theorem RemoveFinalizer_Status (index : Index) (f : String) :
    (RemoveFinalizer index f).Status = index.Status := rfl

/-- What a run of `setFinalizer` shows: no status write, no provisioning, no
secret creation, and the object it hands back has the status it was given. -/
theorem setFinalizer_observed (r : IndexReconciler) (index : Index) :
    statusWrites (setFinalizer r index).trace = [] ∧
    (setFinalizer r index).trace.filterMap Event.initialized = [] ∧
    (setFinalizer r index).trace.filterMap Event.secretCreated = [] ∧
    (∀ index' err, (setFinalizer r index).out = .ret (index', err) →
      index'.Status = index.Status) := by
  obtain ⟨-, d2, d3, d4⟩ := deleteIndex_observed r index
  cases hz : IsZero index.DeletionTimestamp <;>
  cases hf : ContainsFinalizer index finalizerName
  · have hS : setFinalizer r index = ⟨[], .ret (index, none)⟩ := by
      simp [setFinalizer_eq, hz, hf]
    rw [hS]
    refine ⟨?_, ?_, ?_, ?_⟩ <;> simp [statusWrites]
  · rcases hD : (deleteIndex r index).out with (_ | msg) | _
    · have hS : setFinalizer r index = ⟨(deleteIndex r index).trace, .panicked⟩ := by
        simp [setFinalizer_eq, hz, hf, hD]
      rw [hS]
      refine ⟨?_, ?_, ?_, ?_⟩ <;> simp [statusWrites, d2, d3, d4]
    · cases hc : strings.Contains msg "not found"
      · have hS : setFinalizer r index =
            ⟨(deleteIndex r index).trace, .ret (index, some msg)⟩ := by
          simp [setFinalizer_eq, hz, hf, hD, hc]
        rw [hS]
        refine ⟨?_, ?_, ?_, ?_⟩ <;> simp [statusWrites, d2, d3, d4]
      · have hS : setFinalizer r index =
            ⟨(deleteIndex r index).trace ++
                [.Update (RemoveFinalizer index finalizerName) r.cluster.Update],
              .ret (RemoveFinalizer index finalizerName, r.cluster.Update)⟩ := by
          simp [setFinalizer_eq, hz, hf, hD, hc]
        rw [hS]
        refine ⟨?_, ?_, ?_, ?_⟩ <;>
          simp [statusWrites, d2, d3, d4, Event.statusWritten, Event.initialized,
            Event.secretCreated]
        rfl
    · have hS : setFinalizer r index = ⟨(deleteIndex r index).trace, .panicked⟩ := by
        simp [setFinalizer_eq, hz, hf, hD]
      rw [hS]
      refine ⟨?_, ?_, ?_, ?_⟩ <;> simp [statusWrites, d2, d3, d4]
  · have hS : setFinalizer r index =
        ⟨[.Update (AddFinalizer index finalizerName) r.cluster.Update],
          .ret (AddFinalizer index finalizerName, r.cluster.Update)⟩ := by
      simp [setFinalizer_eq, hz, hf]
    rw [hS]
    refine ⟨?_, ?_, ?_, ?_⟩ <;>
      simp [statusWrites, Event.statusWritten, Event.initialized, Event.secretCreated]
    exact AddFinalizer_Status index finalizerName
  · have hS : setFinalizer r index = ⟨[], .ret (index, none)⟩ := by
      simp [setFinalizer_eq, hz, hf]
    rw [hS]
    refine ⟨?_, ?_, ?_, ?_⟩ <;> simp [statusWrites]

/-- What a run of `Reconcile` shows: either it writes no status, or it writes
`Error` alone and returns an error, or it provisions along one of the six
courses; in the first two cases it neither provisions nor creates a secret. -/
theorem Reconcile_observed (r : IndexReconciler) (req : Request) :
    (statusWrites (Reconcile r req).trace = [] ∧
      (Reconcile r req).trace.filterMap Event.initialized = [] ∧
      (Reconcile r req).trace.filterMap Event.secretCreated = []) ∨
    (statusWrites (Reconcile r req).trace = [Error] ∧
      (Reconcile r req).trace.filterMap Event.initialized = [] ∧
      (Reconcile r req).trace.filterMap Event.secretCreated = [] ∧
      ∃ e, (Reconcile r req).out = .ret ({}, some e)) ∨
    ProvisionCourse (statusWrites (Reconcile r req).trace)
      ((Reconcile r req).trace.filterMap Event.initialized)
      ((Reconcile r req).trace.filterMap Event.secretCreated)
      (Reconcile r req).out := by
  rw [Reconcile_eq]
  rcases r.cluster.Get with index | msg | msg
  · obtain ⟨s1, s2, s3, -⟩ := setFinalizer_observed r index
    simp only [statusWrites] at s1
    rcases hS : (setFinalizer r index).out with ⟨index', _ | e⟩ | _
    · by_cases h : index'.Status.IndexStatus = ""
      · obtain ⟨-, -, hP⟩ := provisionIndex_observed r index' req
        refine Or.inr (Or.inr ?_)
        simpa only [hS, h, if_true, statusWrites, s1, s2, s3, Event.statusWritten,
          Event.initialized, Event.secretCreated, List.filterMap_cons, List.filterMap_append,
          List.nil_append] using hP
      · refine Or.inl ?_
        simp only [hS, h, if_false, statusWrites, s1, s2, s3, Event.statusWritten,
          Event.initialized, Event.secretCreated, List.filterMap_cons, and_self]
    · refine Or.inr (Or.inl ?_)
      simp [hS, statusWrites, s1, s2, s3, Event.statusWritten, Event.initialized,
        Event.secretCreated]
    · refine Or.inl ?_
      simp only [hS, statusWrites, s1, s2, s3, Event.statusWritten,
        Event.initialized, Event.secretCreated, List.filterMap_cons, and_self]
  · simp [statusWrites, Event.statusWritten, Event.initialized, Event.secretCreated]
  · simp [statusWrites, Event.statusWritten, Event.initialized, Event.secretCreated]

end controllers

namespace es

/-- `InitializeIndex` returns a result only with a nil error, after all six
calls, the index and alias creations answered by success or by a conflict,
the role and user creations, the connection and the probe by success. -/
theorem InitializeIndex_result_gated (c : EsClient) (b : Backend) (ops : EsSetupOptions)
    (res : EsResult) (e : GoError) (h : (InitializeIndex c b ops).out = .ret (some res, e)) :
    e = none ∧ res = provisionResult b ops ∧
    (InitializeIndex c b ops).trace = provisionCalls c b ops ∧
    (b.IndicesCreate.succeeded = true ∨ b.IndicesCreate.conflict = true) ∧
    (b.IndicesPutAlias.succeeded = true ∨ b.IndicesPutAlias.conflict = true) ∧
    b.SecurityPutRole.succeeded = true ∧ b.SecurityPutUser.succeeded = true ∧
    b.NewClient 0 = none ∧ b.IndicesGet.succeeded = true := by
  revert h
  rw [InitializeIndex_eq]
  simp only [← tolerantOutcome_eq_ret_none "Cannot create index: " b.IndicesCreate,
    ← tolerantOutcome_eq_ret_none "Cannot create alias: " b.IndicesPutAlias,
    ← stepOutcome_eq_ret_none "Cannot create role: " b.SecurityPutRole,
    ← stepOutcome_eq_ret_none "Cannot create user: " b.SecurityPutUser,
    ← stepOutcome_eq_ret_none "Cannot test index: " b.IndicesGet]
  rcases tolerantOutcome "Cannot create index: " b.IndicesCreate with (_ | e1) | _ <;> simp
  rcases tolerantOutcome "Cannot create alias: " b.IndicesPutAlias with (_ | e1) | _ <;> simp
  rcases stepOutcome "Cannot create role: " b.SecurityPutRole with (_ | e1) | _ <;> simp
  rcases stepOutcome "Cannot create user: " b.SecurityPutUser with (_ | e1) | _ <;> simp
  cases b.NewClient 0 <;> simp
  rcases stepOutcome "Cannot test index: " b.IndicesGet with (_ | e1) | _ <;> simp
  intro h1 h2
  exact ⟨h2.symm, h1.symm⟩

end es

namespace controllers

open esv1

/-- In a run of `provisionIndex` the secret creation is asked for only after
`InitializeIndex` returned a result, and a run that returns an error has
written `Error` last. -/
theorem provisionIndex_gated (r : IndexReconciler) (index : Index) (req : Request) :
    (secretWritten (provisionIndex r index req).trace = true →
      initializeIndexSucceeded (provisionIndex r index req).trace = true) ∧
    (∀ x e, (provisionIndex r index req).out = .ret (x, some e) →
      (statusWrites (provisionIndex r index req).trace).getLast? = some Error ∧
      secretCreated (provisionIndex r index req).trace = false) := by
  obtain ⟨-, -, h⟩ := provisionIndex_observed r index req
  simp only [secretWritten, initializeIndexSucceeded, secretCreated]
  rcases h with ⟨e, h1, h2, h3, h4⟩ | ⟨h1, h2, h3, h4⟩ | ⟨x, e, h1, h2, h3, h4⟩ |
    ⟨h1, h2, h3, h4⟩ | ⟨res, e, h1, h2, h3, h4⟩ | ⟨res, h1, h2, h3, h4⟩ <;>
    simp [h1, h2, h3, h4, returnedResult]

/-- When the config map is found but has no `mapping.json` key, or an empty
one, `getConfigMap` returns the nil error of the lookup. -/
theorem getConfigMap_missing_key (r : IndexReconciler) (index : Index) (ns : String)
    (cm : GoMap) (hname : index.Spec.ConfigMap ≠ "") (hget : r.cluster.ConfigMapsGet = (cm, none))
    (hkey : cm.get configMapKey = "") :
    getConfigMap r index ns =
      ⟨[.ConfigMapsGet ns index.Spec.ConfigMap none], .ret ("", none)⟩ := by
  simp [getConfigMap, hname, hget, hkey, Run.bind_eq, Run.pure_eq, Run.emit, Run.bind_ret]

/-- When `deleteIndex` returns nil on a request that has deletion intent and
carries the finalizer, `Reconcile` panics and sends no `Update`. -/
theorem Reconcile_panics_when_deleteIndex_returns_nil (r : IndexReconciler) (req : Request)
    (index : Index) (hget : r.cluster.Get = .found index)
    (hdel : IsZero index.DeletionTimestamp = false)
    (hfin : ContainsFinalizer index finalizerName = true)
    (hnil : (deleteIndex r index).out = .ret none) :
    (Reconcile r req).out = .panicked ∧
    (Reconcile r req).trace.filterMap Event.updated = [] := by
  obtain ⟨d1, -, -, -⟩ := deleteIndex_observed r index
  have hS : setFinalizer r index = ⟨(deleteIndex r index).trace, .panicked⟩ := by
    simp [setFinalizer_eq, hdel, hfin, hnil]
  simp [Reconcile_eq, hget, hS, d1, Event.updated]

/-- `Reconcile` provisions only a request whose status is unset. -/
theorem Reconcile_provisions_only_unset (r : IndexReconciler) (req : Request) (index : Index)
    (hget : r.cluster.Get = .found index) (hst : index.Status.IndexStatus ≠ "") :
    (Reconcile r req).trace.filterMap Event.initialized = [] := by
  obtain ⟨-, s2, -, s4⟩ := setFinalizer_observed r index
  rw [Reconcile_eq]
  simp only [hget]
  rcases hS : (setFinalizer r index).out with ⟨index', _ | e⟩ | _
  · have h : ¬ index'.Status.IndexStatus = "" := by
      rw [s4 index' none hS]
      exact hst
    simp [h, s2, Event.initialized]
  · simp [s2, Event.initialized]
  · simp [s2, Event.initialized]

end controllers

namespace es

theorem connectEs_eq (b : Backend) (i : Nat) (ops : EsOptions) :
    connectEs b i ops =
      ⟨[.NewClient (configOf ops)],
        match b.NewClient i with
        | some err => .ret (none, some err)
        | none => .ret (some ⟨configOf ops⟩, none)⟩ := by
  cases h : b.NewClient i <;>
    simp [connectEs, configOf, h, Run.bind_eq, Run.pure_eq, Run.emit, Run.bind_ret]

theorem firstSuccess_spec (answers : Nat → GoError) (m i k : Nat)
    (h : firstSuccess answers i m = some k) :
    i ≤ k ∧ k < i + m ∧ answers k = none ∧ ∀ j, i ≤ j → j < k → answers j ≠ none := by
  induction m generalizing i with
  | zero => simp [firstSuccess] at h
  | succ m ih =>
    unfold firstSuccess at h
    by_cases hi : (answers i).isNone = true
    · simp only [hi, if_true, Option.some.injEq] at h
      subst h
      refine ⟨le_refl _, by omega, by simpa using hi, ?_⟩
      intro j h1 h2
      omega
    · simp only [hi, if_false] at h
      obtain ⟨h1, h2, h3, h4⟩ := ih (i + 1) h
      refine ⟨by omega, by omega, h3, ?_⟩
      intro j hj1 hj2
      by_cases hji : j = i
      · subst hji
        intro hn
        simp [hn] at hi
      · exact h4 j (by omega) hj2

theorem firstSuccess_none (answers : Nat → GoError) (m i : Nat) :
    firstSuccess answers i m = none ↔ ∀ j, i ≤ j → j < i + m → answers j ≠ none := by
  induction m generalizing i with
  | zero =>
    simp only [firstSuccess, true_iff]
    intro j h1 h2
    omega
  | succ m ih =>
    unfold firstSuccess
    by_cases hi : (answers i).isNone = true
    · simp only [hi, if_true]
      constructor
      · intro h
        cases h
      · intro h
        have := h i (le_refl _) (by omega)
        simp [Option.isNone_iff_eq_none.1 hi] at this
    · have hi' : (answers i).isNone = false := by
        cases hb : (answers i).isNone
        · rfl
        · exact absurd hb hi
      simp only [hi', Bool.false_eq_true, if_false, ih (i + 1)]
      constructor
      · intro h j h1 h2
        by_cases hji : j = i
        · subst hji
          intro hn
          simp [hn] at hi
        · exact h j (by omega) (by omega)
      · intro h j h1 h2
        exact h j (by omega) (by omega)

/-- The loop of `connectEsWithRetry`, entered with loop counter `i` and the
variable `sleep` doubled `i - 1` times: it stops at the first attempt answered
without error, or gives up after `fuel` attempts. -/
theorem connectEsWithRetryLoop_eq (b : Backend) (ops : EsOptions) (s : Int) (fuel i : Nat) :
    connectEsWithRetryLoop b ops fuel i (doubled s (i - 1)) =
      match firstSuccess b.NewClient i fuel with
      | some k => ⟨attemptsFrom (configOf ops) s i (k + 1 - i), .ret (some ⟨configOf ops⟩, none)⟩
      | none => ⟨attemptsFrom (configOf ops) s i fuel, .ret (none, some (exhausted ops))⟩ := by
  induction fuel generalizing i with
  | zero => simp [connectEsWithRetryLoop, firstSuccess, attemptsFrom, exhausted, Run.pure_eq]
  | succ fuel ih =>
    have hnext : (if i > 0 then wrapInt64 (doubled s (i - 1) * 2) else doubled s (i - 1)) =
        doubled s (i + 1 - 1) := by
      rcases i with _ | i
      · simp
      · simp [doubled]
    unfold connectEsWithRetryLoop firstSuccess
    simp only [connectEs_eq, Run.bind_eq, Run.pure_eq, Run.emit]
    cases hb : b.NewClient i
    · have h1 : i + 1 - i = 1 := by omega
      by_cases hi : i > 0 <;>
        simp [hi, h1, Run.bind_ret, attemptsFrom, attemptCalls]
    · have key := ih (i + 1)
      rw [← hnext] at key
      by_cases hi : i > 0
      · simp only [hi, if_true] at key
        simp only [hi, if_true, Run.bind_ret, Option.isNone_some, Bool.false_eq_true, if_false,
          key]
        cases hf : firstSuccess b.NewClient (i + 1) fuel with
        | none => simp [attemptsFrom, attemptCalls, hi]
        | some k =>
          have hk := (firstSuccess_spec _ _ _ _ hf).1
          have h2 : k + 1 - i = (k + 1 - (i + 1)) + 1 := by omega
          simp [h2, attemptsFrom, attemptCalls, hi]
      · simp only [hi, if_false] at key
        simp only [hi, if_false, Run.bind_ret, Option.isNone_some, Bool.false_eq_true, key]
        cases hf : firstSuccess b.NewClient (i + 1) fuel with
        | none => simp [attemptsFrom, attemptCalls, hi]
        | some k =>
          have hk := (firstSuccess_spec _ _ _ _ hf).1
          have h2 : k + 1 - i = (k + 1 - (i + 1)) + 1 := by omega
          simp [h2, attemptsFrom, attemptCalls, hi]

/-- The run of `connectEsWithRetry` for any retry count and any answers. -/
theorem connectEsWithRetry_eq (b : Backend) (ops : EsOptions) (s : Int) :
    connectEsWithRetry b ops s =
      match firstSuccess b.NewClient 0 ops.Retries.toNat with
      | some k => ⟨attemptsFrom (configOf ops) s 0 (k + 1), .ret (some ⟨configOf ops⟩, none)⟩
      | none =>
        ⟨attemptsFrom (configOf ops) s 0 ops.Retries.toNat,
          .ret (none, some (exhausted ops))⟩ := by
  have h := connectEsWithRetryLoop_eq b ops s ops.Retries.toNat 0
  simpa [connectEsWithRetry, doubled] using h

end es

namespace es

theorem wrapInt64_of_fits (x : Int) (h1 : -2 ^ 63 ≤ x) (h2 : x < 2 ^ 63) : wrapInt64 x = x := by
  unfold wrapInt64
  have h : (x + 2 ^ 63) % 2 ^ 64 = x + 2 ^ 63 := Int.emod_eq_of_lt (by omega) (by omega)
  omega

/-- As long as no doubling leaves the 64-bit range, the variable `sleep` is
the initial delay times a power of two. -/
theorem doubled_eq (s : Int) (m : Nat)
    (h : ∀ j, 1 ≤ j → j ≤ m → -2 ^ 63 ≤ s * 2 ^ j ∧ s * 2 ^ j < 2 ^ 63) :
    doubled s m = s * 2 ^ m := by
  induction m with
  | zero => simp [doubled]
  | succ m ih =>
    have hm := ih (fun j h1 h2 => h j h1 (by omega))
    have hb := h (m + 1) (by omega) (le_refl _)
    have e : s * 2 ^ m * 2 = s * 2 ^ (m + 1) := by ring
    rw [doubled, hm, e]
    exact wrapInt64_of_fits _ hb.1 hb.2

theorem attemptsFrom_eq_backoffFrom (cfg : Config) (s : Int) (m i : Nat)
    (h : ∀ j, 1 ≤ j → j + 1 < i + m → -2 ^ 63 ≤ s * 2 ^ j ∧ s * 2 ^ j < 2 ^ 63) :
    attemptsFrom cfg s i m = backoffFrom cfg s i m := by
  induction m generalizing i with
  | zero => simp [attemptsFrom, backoffFrom]
  | succ m ih =>
    have hrest := ih (i + 1) (fun j h1 h2 => h j h1 (by omega))
    have hd : doubled s (i - 1) = s * 2 ^ (i - 1) :=
      doubled_eq s (i - 1) (fun j h1 h2 => h j h1 (by omega))
    simp [attemptsFrom, backoffFrom, attemptCalls, hrest, hd]

theorem attemptsFrom_connected_length (cfg : Config) (s : Int) (m i : Nat) :
    ((attemptsFrom cfg s i m).filterMap EsCall.connected).length = m := by
  induction m generalizing i with
  | zero => simp [attemptsFrom]
  | succ m ih =>
    by_cases hi : i > 0 <;>
      simp [attemptsFrom, attemptCalls, hi, ih (i + 1), EsCall.connected, List.filterMap_append]

theorem stepOutcome_of_no_response (what : String) (a : ApiResult) (h : a.res = none) :
    stepOutcome what a = .panicked := by
  simp [stepOutcome, h]

theorem tolerantOutcome_of_no_response (what : String) (a : ApiResult) (h : a.res = none) :
    tolerantOutcome what a = .panicked := by
  simp [tolerantOutcome, h]

/-- Each helper panics when its call is answered with no response, whatever
the error that comes with it. -/
theorem helpers_panic_without_response (c : EsClient) (b : Backend) :
    (b.IndicesCreate.res = none →
      ∀ (name schema : String) (shards replicas : Int) (refresh analyzers : String)
        (source : Bool) (props : String),
        (createIndex c b name schema shards replicas refresh analyzers source props).out =
          .panicked) ∧
    (b.IndicesPutAlias.res = none → ∀ index al, (addAlias c b index al).out = .panicked) ∧
    (b.SecurityPutRole.res = none →
      ∀ index al app ns, (createRole c b index al app ns).out = .panicked) ∧
    (b.SecurityPutUser.res = none → ∀ index role, (createUser c b index role).out = .panicked) ∧
    (b.IndicesGet.res = none → ∀ cl index, (testIndex b (some cl) index).out = .panicked) ∧
    (b.IndicesDeleteAlias.res = none →
      ∀ index al, (deleteAlias c b index al).out = .panicked) ∧
    (b.IndicesDelete.res = none → ∀ index, (deleteIndex c b index).out = .panicked) ∧
    (b.SecurityDeleteUser.res = none → ∀ user, (deleteUser c b user).out = .panicked) ∧
    (b.SecurityDeleteRole.res = none → ∀ role, (deleteRole c b role).out = .panicked) := by
  refine ⟨?_, ?_, ?_, ?_, ?_, ?_, ?_, ?_, ?_⟩ <;> intro h
  · intros
    simp [createIndex_eq, tolerantOutcome_of_no_response _ _ h]
  · intros
    simp [addAlias_eq, tolerantOutcome_of_no_response _ _ h]
  · intros
    simp [createRole_eq, stepOutcome_of_no_response _ _ h]
  · intros
    simp [createUser_eq, stepOutcome_of_no_response _ _ h]
  · intros
    simp [testIndex_eq, stepOutcome_of_no_response _ _ h]
  · intros
    simp [deleteAlias_eq, stepOutcome_of_no_response _ _ h]
  · intros
    simp [deleteIndex_eq, stepOutcome_of_no_response _ _ h]
  · intros
    simp [deleteUser_eq, stepOutcome_of_no_response _ _ h]
  · intros
    simp [deleteRole_eq, stepOutcome_of_no_response _ _ h]

end es

namespace controllers

open esv1

theorem ContainsFinalizer_AddFinalizer (index : Index) (f : String) :
    ContainsFinalizer (AddFinalizer index f) f = true := by
  unfold AddFinalizer
  by_cases h : (index.Finalizers.any fun e => e == f) = true
  · simp [h, ContainsFinalizer]
  · simp [h, ContainsFinalizer]

/-- On a request without deletion intent, `InitializeIndex` is invoked only on
an object that carries the finalizer: either the object read carried it, or
an `Update` of the object with the finalizer added was answered without
error before `provisionIndex` started. -/
theorem Reconcile_attaches_finalizer_first (r : IndexReconciler) (req : Request)
    (index : Index) (hget : r.cluster.Get = .found index)
    (hz : IsZero index.DeletionTimestamp = true)
    (hinit : initializeIndexInvoked (Reconcile r req).trace = true) :
    (ContainsFinalizer index finalizerName = true ∧
      (Reconcile r req).trace = .Get req :: (provisionIndex r index req).trace) ∨
    (ContainsFinalizer (AddFinalizer index finalizerName) finalizerName = true ∧
      (Reconcile r req).trace =
        .Get req :: .Update (AddFinalizer index finalizerName) none ::
          (provisionIndex r (AddFinalizer index finalizerName) req).trace) := by
  revert hinit
  rw [Reconcile_eq]
  simp only [hget]
  cases hf : ContainsFinalizer index finalizerName
  · have hS : setFinalizer r index =
        ⟨[.Update (AddFinalizer index finalizerName) r.cluster.Update],
          .ret (AddFinalizer index finalizerName, r.cluster.Update)⟩ := by
      simp [setFinalizer_eq, hz, hf]
    rw [hS]
    cases hu : r.cluster.Update
    · by_cases hs : (AddFinalizer index finalizerName).Status.IndexStatus = ""
      · simp [hs, ContainsFinalizer_AddFinalizer]
      · simp [hs, initializeIndexInvoked, Event.initialized]
    · simp [initializeIndexInvoked, Event.initialized]
  · have hS : setFinalizer r index = ⟨[], .ret (index, none)⟩ := by
      simp [setFinalizer_eq, hz, hf]
    rw [hS]
    by_cases hs : index.Status.IndexStatus = ""
    · simp [hs]
    · simp [hs, initializeIndexInvoked, Event.initialized]

end controllers

namespace es

/-- When the index and alias creations are answered by success or by a
conflict and the role creation, the user creation, the connection and the
probe by success, `InitializeIndex` issues its six calls and returns the
result. -/
theorem InitializeIndex_succeeds (c : EsClient) (b : Backend) (ops : EsSetupOptions)
    (h1 : b.IndicesCreate.succeeded = true ∨ b.IndicesCreate.conflict = true)
    (h2 : b.IndicesPutAlias.succeeded = true ∨ b.IndicesPutAlias.conflict = true)
    (h3 : b.SecurityPutRole.succeeded = true) (h4 : b.SecurityPutUser.succeeded = true)
    (h5 : b.NewClient 0 = none) (h6 : b.IndicesGet.succeeded = true) :
    InitializeIndex c b ops =
      ⟨provisionCalls c b ops, .ret (some (provisionResult b ops), none)⟩ := by
  rw [InitializeIndex_eq]
  simp [tolerantOutcome_of_tolerated _ _ h1, tolerantOutcome_of_tolerated _ _ h2,
    (stepOutcome_eq_ret_none _ _).2 h3, (stepOutcome_eq_ret_none _ _).2 h4, h5,
    (stepOutcome_eq_ret_none _ _).2 h6]

end es

namespace controllers

open esv1

theorem AddFinalizer_Spec (index : Index) (f : String) :
    (AddFinalizer index f).Spec = index.Spec := by
  unfold AddFinalizer
  split <;> rfl

/-- The object `setFinalizer` hands back has the spec it was given. -/
theorem setFinalizer_Spec (r : IndexReconciler) (index index' : Index) (err : GoError)
    (h : (setFinalizer r index).out = .ret (index', err)) : index'.Spec = index.Spec := by
  cases hz : IsZero index.DeletionTimestamp <;>
  cases hf : ContainsFinalizer index finalizerName
  · have hS : setFinalizer r index = ⟨[], .ret (index, none)⟩ := by
      simp [setFinalizer_eq, hz, hf]
    simp only [hS, Outcome.ret.injEq, Prod.mk.injEq] at h
    rw [← h.1]
  · rcases hD : (deleteIndex r index).out with (_ | msg) | _
    · have hS : setFinalizer r index = ⟨(deleteIndex r index).trace, .panicked⟩ := by
        simp [setFinalizer_eq, hz, hf, hD]
      simp [hS] at h
    · cases hc : strings.Contains msg "not found"
      · have hS : setFinalizer r index =
            ⟨(deleteIndex r index).trace, .ret (index, some msg)⟩ := by
          simp [setFinalizer_eq, hz, hf, hD, hc]
        simp only [hS, Outcome.ret.injEq, Prod.mk.injEq] at h
        rw [← h.1]
      · have hS : setFinalizer r index =
            ⟨(deleteIndex r index).trace ++
                [.Update (RemoveFinalizer index finalizerName) r.cluster.Update],
              .ret (RemoveFinalizer index finalizerName, r.cluster.Update)⟩ := by
          simp [setFinalizer_eq, hz, hf, hD, hc]
        simp only [hS, Outcome.ret.injEq, Prod.mk.injEq] at h
        rw [← h.1]
        rfl
    · have hS : setFinalizer r index = ⟨(deleteIndex r index).trace, .panicked⟩ := by
        simp [setFinalizer_eq, hz, hf, hD]
      simp [hS] at h
  · have hS : setFinalizer r index =
        ⟨[.Update (AddFinalizer index finalizerName) r.cluster.Update],
          .ret (AddFinalizer index finalizerName, r.cluster.Update)⟩ := by
      simp [setFinalizer_eq, hz, hf]
    simp only [hS, Outcome.ret.injEq, Prod.mk.injEq] at h
    rw [← h.1]
    exact AddFinalizer_Spec index finalizerName
  · have hS : setFinalizer r index = ⟨[], .ret (index, none)⟩ := by
      simp [setFinalizer_eq, hz, hf]
    simp only [hS, Outcome.ret.injEq, Prod.mk.injEq] at h
    rw [← h.1]

/-- When the namespace lookup, the config-map lookup, the six backend calls
and the secret creation are answered without error, `provisionIndex` returns
no error. -/
theorem provisionIndex_succeeds (r : IndexReconciler) (index : Index) (req : Request)
    (hns : r.cluster.NamespacesGet.2 = none)
    (hcm : index.Spec.ConfigMap = "" ∨ r.cluster.ConfigMapsGet.2 = none)
    (h1 : r.backend.IndicesCreate.succeeded = true ∨ r.backend.IndicesCreate.conflict = true)
    (h2 : r.backend.IndicesPutAlias.succeeded = true ∨
      r.backend.IndicesPutAlias.conflict = true)
    (h3 : r.backend.SecurityPutRole.succeeded = true)
    (h4 : r.backend.SecurityPutUser.succeeded = true)
    (h5 : r.backend.NewClient 0 = none) (h6 : r.backend.IndicesGet.succeeded = true)
    (hsec : r.cluster.SecretsCreate = none) :
    (provisionIndex r index req).out = .ret ({}, none) := by
  rcases r with ⟨c, ⟨get, upd, ⟨ns, nserr⟩, ⟨cm, cmerr⟩, ⟨sec, secerr⟩, sdel, sdelx, screate⟩, b⟩
  simp only at hns hcm hsec h1 h2 h3 h4 h5 h6
  subst hns hsec
  have hI := fun ops => es.InitializeIndex_succeeds c b ops h1 h2 h3 h4 h5 h6
  simp only [provisionIndex, getConfigMap, createSecret, Run.bind_eq, Run.pure_eq, Run.emit,
    Run.panic, updateStatus_eq, Run.bind_ret, hI]
  by_cases hc : index.Spec.ConfigMap = ""
  · simp [hc, Run.bind_ret]
  · have hcm' : cmerr = none := by
      rcases hcm with h | h
      · exact absurd h hc
      · exact h
    subst hcm'
    by_cases hk : GoMap.get cm configMapKey = "" <;> simp [hc, hk, Run.bind_ret]

end controllers

namespace es

theorem attemptsFrom_connected (cfg : Config) (s : Int) (m i : Nat) :
    (attemptsFrom cfg s i m).filterMap EsCall.connected = List.replicate m cfg := by
  induction m generalizing i with
  | zero => simp [attemptsFrom]
  | succ m ih =>
    by_cases hi : i > 0 <;>
      simp [attemptsFrom, attemptCalls, hi, ih (i + 1), EsCall.connected, List.filterMap_append,
        List.replicate_succ]

/-- The calls of the first `m` attempts open the calls of the first `m + d`. -/
theorem attemptsFrom_append (cfg : Config) (s : Int) (m d i : Nat) :
    attemptsFrom cfg s i (m + d) = attemptsFrom cfg s i m ++ attemptsFrom cfg s (i + m) d := by
  induction m generalizing i with
  | zero => simp [attemptsFrom]
  | succ m ih =>
    have e : m + 1 + d = (m + d) + 1 := by omega
    have e2 : i + 1 + m = i + (m + 1) := by omega
    rw [e]
    simp [attemptsFrom, ih (i + 1), e2]

/-- As long as the waits before the attempts fit in 64 bits, the calls of the
first `m` attempts of a run of `total` attempts are those of the exact
exponential backoff. -/
theorem backoffFrom_opens_attemptsFrom (cfg : Config) (s : Int) (m total : Nat)
    (hm : m ≤ total)
    (hfit : ∀ i, 1 ≤ i → i < m → -2 ^ 63 ≤ s * 2 ^ (i - 1) ∧ s * 2 ^ (i - 1) < 2 ^ 63) :
    backoffFrom cfg s 0 m <+: attemptsFrom cfg s 0 total := by
  obtain ⟨d, rfl⟩ := Nat.exists_eq_add_of_le hm
  rw [attemptsFrom_append, ← attemptsFrom_eq_backoffFrom cfg s m 0]
  · exact List.prefix_append _ _
  · intro j h1 h2
    have := hfit (j + 1) (by omega) (by omega)
    simpa using this

end es

/-! ## Reconciliation: deletion -/

section Deletion

open es controllers esv1 samples

/-- Claim C1, as stated, fails: the request is marked for deletion and carries
the finalizer, the credential secret cannot be read (not found), so
`deleteIndex` returns that error and `RemoveIndex` is never invoked; the run
nevertheless sends the `Update` that removes the finalizer. -/
theorem Reconcile_removes_finalizer_without_teardown :
    IsZero deletingIndex.DeletionTimestamp = false ∧
    ContainsFinalizer deletingIndex finalizerName = true ∧
    (controllers.deleteIndex missingSecretReconciler deletingIndex).out =
      .ret (some "secrets \"es-provisioner-index-secret\" not found") ∧
    removeIndexInvoked (Reconcile missingSecretReconciler request).trace = false ∧
    removeIndexSucceeded (Reconcile missingSecretReconciler request).trace = false ∧
    finalizerRemoved (Reconcile missingSecretReconciler request).trace = true := by
  decide

/-- Claim C1, amended: on a request that has deletion intent and carries the
finalizer, when `deleteIndex` returns an error, the run removes the finalizer
exactly when the text of the error holds `not found`; so the finalizer is
never removed after an error of any other text, and then `Reconcile` returns
that error. -/
theorem Reconcile_keeps_finalizer_on_error (r : IndexReconciler) (req : Request)
    (index : Index) (e : String)
    (hget : r.cluster.Get = .found index)
    (hdel : IsZero index.DeletionTimestamp = false)
    (hfin : ContainsFinalizer index finalizerName = true)
    (herr : (controllers.deleteIndex r index).out = .ret (some e)) :
    finalizerRemoved (Reconcile r req).trace = strings.Contains e "not found" ∧
    (strings.Contains e "not found" = false → (Reconcile r req).out = .ret ({}, some e)) := by
  obtain ⟨d1, -, -, -⟩ := deleteIndex_observed r index
  cases hc : strings.Contains e "not found"
  · have hS : setFinalizer r index = ⟨(controllers.deleteIndex r index).trace,
        .ret (index, some e)⟩ := by
      simp [setFinalizer_eq, hdel, hfin, herr, hc]
    simp [Reconcile_eq, hget, hS, finalizerRemoved, d1, Event.updated]
  · have hS : setFinalizer r index =
        ⟨(controllers.deleteIndex r index).trace ++
            [.Update (RemoveFinalizer index finalizerName) r.cluster.Update],
          .ret (RemoveFinalizer index finalizerName, r.cluster.Update)⟩ := by
      simp [setFinalizer_eq, hdel, hfin, herr, hc]
    have hR := ContainsFinalizer_RemoveFinalizer index finalizerName
    rw [Reconcile_eq]
    simp only [hget, hS]
    cases r.cluster.Update
    · by_cases h : (RemoveFinalizer index finalizerName).Status.IndexStatus = ""
      · have p1 := (provisionIndex_observed r (RemoveFinalizer index finalizerName) req).1
        simp [h, finalizerRemoved, d1, Event.updated, hR, p1]
      · simp [h, finalizerRemoved, d1, Event.updated, hR]
    · simp [finalizerRemoved, d1, Event.updated, hR]

/-- Claim C1, amended, on sample runs: an unauthorized backend keeps the
finalizer, a missing secret removes it. -/
theorem Reconcile_keeps_finalizer_on_error_witness :
    (finalizerRemoved (Reconcile unauthorizedReconciler request).trace =
        strings.Contains "Cannot delete Alias: [401 Unauthorized] security_exception"
          "not found" ∧
      (strings.Contains "Cannot delete Alias: [401 Unauthorized] security_exception"
          "not found" = false →
        (Reconcile unauthorizedReconciler request).out =
          .ret ({}, some "Cannot delete Alias: [401 Unauthorized] security_exception"))) ∧
    finalizerRemoved (Reconcile missingSecretReconciler request).trace =
      strings.Contains "secrets \"es-provisioner-index-secret\" not found" "not found" :=
  ⟨Reconcile_keeps_finalizer_on_error unauthorizedReconciler request deletingIndex
      "Cannot delete Alias: [401 Unauthorized] security_exception" rfl (by decide) (by decide)
      (by decide),
    (Reconcile_keeps_finalizer_on_error missingSecretReconciler request deletingIndex
      "secrets \"es-provisioner-index-secret\" not found" rfl (by decide) (by decide)
      (by decide)).1⟩

/-- Claim C3 at a failing input: the request is marked for deletion and
carries the finalizer; the secret is read, `RemoveIndex` returns nil and the
secret is deleted, so `deleteIndex` returns nil; `setFinalizer` then calls
`err.Error()` on that nil error: the run panics, the finalizer is not removed
and no `Update` is sent. -/
theorem Reconcile_panics_after_successful_teardown :
    IsZero deletingIndex.DeletionTimestamp = false ∧
    ContainsFinalizer deletingIndex finalizerName = true ∧
    controllers.deleteIndex teardownReconciler deletingIndex =
      ⟨[.SecretsGet "team-a" secretName none,
        .RemoveIndex removeOps (deleteCalls esClient removeOps) (.ret none),
        .SecretsDelete "team-a" secretName none], .ret none⟩ ∧
    (Reconcile teardownReconciler request).out = .panicked ∧
    finalizerRemoved (Reconcile teardownReconciler request).trace = false ∧
    (Reconcile teardownReconciler request).trace.filterMap Event.updated = [] := by
  decide

end Deletion

/-! ## Reconciliation: provisioning -/

section ProvisioningRun

open es controllers esv1 samples

/-- Claim C2 at a failing input: the index creation gets no response, only a
transport error; `createIndex` dereferences the nil response in its `defer`
statement, so `InitializeIndex` panics after this one call. No secret is
written, but the run ends without setting the status to `Error`: the only
status written is `Creating`. -/
theorem Reconcile_panics_without_setting_Error :
    unreachableReconciler.backend.IndicesCreate =
      ⟨none, some "dial tcp 10.0.0.7:9200: connect: connection refused"⟩ ∧
    (Reconcile unreachableReconciler request).trace.filterMap Event.initialized =
      [.panicked] ∧
    (Reconcile unreachableReconciler request).out = .panicked ∧
    secretWritten (Reconcile unreachableReconciler request).trace = false ∧
    statusWrites (Reconcile unreachableReconciler request).trace = [Creating] := by
  decide

/-- Claim C6: a run on a request with unset status that returns no error,
which is a run in which the namespace lookup, the config-map lookup,
`InitializeIndex` and `createSecret` all succeeded, has written exactly
`Creating`, `Created`, `Ready`; whenever `setFinalizer` returns no error on
such a request and the namespace lookup, the config-map lookup, the backend
calls of `InitializeIndex` and the secret creation are answered without error,
the run returns no error and has written exactly these three; and in every
run the status values written are an initial segment of these three,
optionally followed by a single final `Error`, which is there whenever the
run on a request that was found returns an error. -/
theorem Reconcile_status_sequence (r : IndexReconciler) (req : Request) :
    (∀ index, r.cluster.Get = .found index → index.Status.IndexStatus = "" →
      (Reconcile r req).out = .ret ({}, none) →
      statusWrites (Reconcile r req).trace = [Creating, Created, Ready]) ∧
    (∀ index index', r.cluster.Get = .found index → index.Status.IndexStatus = "" →
      (setFinalizer r index).out = .ret (index', none) →
      r.cluster.NamespacesGet.2 = none →
      (index.Spec.ConfigMap = "" ∨ r.cluster.ConfigMapsGet.2 = none) →
      (r.backend.IndicesCreate.succeeded = true ∨ r.backend.IndicesCreate.conflict = true) →
      (r.backend.IndicesPutAlias.succeeded = true ∨
        r.backend.IndicesPutAlias.conflict = true) →
      r.backend.SecurityPutRole.succeeded = true →
      r.backend.SecurityPutUser.succeeded = true →
      r.backend.NewClient 0 = none → r.backend.IndicesGet.succeeded = true →
      r.cluster.SecretsCreate = none →
      (Reconcile r req).out = .ret ({}, none) ∧
      statusWrites (Reconcile r req).trace = [Creating, Created, Ready]) ∧
    (∃ k, statusWrites (Reconcile r req).trace = [Creating, Created, Ready].take k ∨
      statusWrites (Reconcile r req).trace = [Creating, Created, Ready].take k ++ [Error]) ∧
    (∀ index e, r.cluster.Get = .found index → (Reconcile r req).out = .ret ({}, some e) →
      ∃ k, k ≤ 2 ∧
        statusWrites (Reconcile r req).trace = [Creating, Created, Ready].take k ++ [Error]) := by
  have first : ∀ index, r.cluster.Get = .found index → index.Status.IndexStatus = "" →
      (Reconcile r req).out = .ret ({}, none) →
      statusWrites (Reconcile r req).trace = [Creating, Created, Ready] := by
    intro index hget hst
    obtain ⟨s1, -, -, s4⟩ := setFinalizer_observed r index
    simp only [statusWrites] at s1
    rw [Reconcile_eq]
    simp only [hget]
    rcases hS : (setFinalizer r index).out with ⟨index', _ | e⟩ | _
    · have hst' : index'.Status.IndexStatus = "" := by
        rw [s4 index' none hS]
        exact hst
      simp only [hst', if_true]
      intro hout
      obtain ⟨-, -, hP⟩ := provisionIndex_observed r index' req
      rcases hP with ⟨e, h1, h2, h3, h4⟩ | ⟨h1, h2, h3, h4⟩ | ⟨x, e, h1, h2, h3, h4⟩ |
        ⟨h1, h2, h3, h4⟩ | ⟨res, e, h1, h2, h3, h4⟩ | ⟨res, h1, h2, h3, h4⟩
      · simp [h4] at hout
      · simp [h4] at hout
      · simp [h4] at hout
      · simp [h4] at hout
      · simp [h4] at hout
      · simp only [statusWrites] at h1
        simp [statusWrites, Event.statusWritten, s1, h1]
    · simp
    · simp
  refine ⟨first, ?_, ?_, ?_⟩
  · intro index index' hget hst hS hns hcm h1 h2 h3 h4 h5 h6 hsec
    have hst' : index'.Status.IndexStatus = "" := by
      rw [(setFinalizer_observed r index).2.2.2 index' none hS]
      exact hst
    have hcm' : index'.Spec.ConfigMap = "" ∨ r.cluster.ConfigMapsGet.2 = none := by
      rw [setFinalizer_Spec r index index' none hS]
      exact hcm
    have hout : (Reconcile r req).out = .ret ({}, none) := by
      rw [Reconcile_eq]
      simp only [hget, hS, hst', if_true]
      exact provisionIndex_succeeds r index' req hns hcm' h1 h2 h3 h4 h5 h6 hsec
    exact ⟨hout, first index hget hst hout⟩
  · rcases Reconcile_observed r req with ⟨h1, h2, h3⟩ | ⟨h1, h2, h3, h4⟩ | h
    · exact ⟨0, Or.inl (by simp [h1])⟩
    · exact ⟨0, Or.inr (by simp [h1])⟩
    · rcases h with ⟨e, h1, h2, h3, h4⟩ | ⟨h1, h2, h3, h4⟩ | ⟨x, e, h1, h2, h3, h4⟩ |
        ⟨h1, h2, h3, h4⟩ | ⟨res, e, h1, h2, h3, h4⟩ | ⟨res, h1, h2, h3, h4⟩
      · exact ⟨1, Or.inr (by simp [h1])⟩
      · exact ⟨1, Or.inl (by simp [h1])⟩
      · exact ⟨1, Or.inr (by simp [h1])⟩
      · exact ⟨2, Or.inl (by simp [h1])⟩
      · exact ⟨2, Or.inr (by simp [h1])⟩
      · exact ⟨3, Or.inl (by simp [h1])⟩
  · intro index e hget
    obtain ⟨s1, -, -, -⟩ := setFinalizer_observed r index
    simp only [statusWrites] at s1
    rw [Reconcile_eq]
    simp only [hget]
    rcases hS : (setFinalizer r index).out with ⟨index', _ | e'⟩ | _
    · by_cases hst : index'.Status.IndexStatus = ""
      · simp only [hst, if_true]
        intro hout
        obtain ⟨-, -, hP⟩ := provisionIndex_observed r index' req
        rcases hP with ⟨e, h1, h2, h3, h4⟩ | ⟨h1, h2, h3, h4⟩ | ⟨x, e, h1, h2, h3, h4⟩ |
          ⟨h1, h2, h3, h4⟩ | ⟨res, e, h1, h2, h3, h4⟩ | ⟨res, h1, h2, h3, h4⟩
        · simp only [statusWrites] at h1
          exact ⟨1, by omega, by simp [statusWrites, Event.statusWritten, s1, h1]⟩
        · simp [h4] at hout
        · simp only [statusWrites] at h1
          exact ⟨1, by omega, by simp [statusWrites, Event.statusWritten, s1, h1]⟩
        · simp [h4] at hout
        · simp only [statusWrites] at h1
          exact ⟨2, by omega, by simp [statusWrites, Event.statusWritten, s1, h1]⟩
        · simp [h4] at hout
      · simp [hst]
    · intro _
      exact ⟨0, by omega, by simp [statusWrites, Event.statusWritten, s1]⟩
    · simp

/-- Claim C6 on the sample run: the first reconcile of a fresh request on a
healthy cluster and backend returns no error and writes the three values. -/
theorem Reconcile_status_sequence_witness :
    statusWrites (Reconcile reconciler request).trace = [Creating, Created, Ready] ∧
    ((Reconcile reconciler request).out = .ret ({}, none) ∧
      statusWrites (Reconcile reconciler request).trace = [Creating, Created, Ready]) :=
  ⟨(Reconcile_status_sequence reconciler request).1 freshIndex rfl rfl (by decide),
    (Reconcile_status_sequence reconciler request).2.1 freshIndex
      (AddFinalizer freshIndex finalizerName) rfl rfl (by decide) (by decide)
      (Or.inl (by decide)) (Or.inl (by decide)) (Or.inl (by decide)) (by decide) (by decide)
      (by decide) (by decide) (by decide)⟩

/-- Claim C9 at a failing input: the request names a config map, the config
map is found and has no `mapping.json` key; `getConfigMap` logs the missing
key and returns the error of the lookup, which is nil. The run goes on,
invokes `InitializeIndex` with an empty schema and ends `Ready` with no error. -/
theorem Reconcile_ignores_missing_mapping_key :
    mappedIndex.Spec.ConfigMap = "billing-mapping" ∧
    missingKeyReconciler.cluster.ConfigMapsGet =
      ([("settings.json", "number_of_shards: 2")], none) ∧
    GoMap.get [("settings.json", "number_of_shards: 2")] configMapKey = "" ∧
    getConfigMap missingKeyReconciler mappedIndex "team-a" =
      ⟨[.ConfigMapsGet "team-a" "billing-mapping" none], .ret ("", none)⟩ ∧
    initializeIndexInvoked (Reconcile missingKeyReconciler request).trace = true ∧
    statusWrites (Reconcile missingKeyReconciler request).trace =
      [Creating, Created, Ready] ∧
    (Reconcile missingKeyReconciler request).out = .ret ({}, none) := by
  decide

/-- Claim C10, as stated, fails: the request has no deletion intent and its
status is `Error`; the next reconcile, on a healthy cluster and backend, only
reads the object: it does not invoke `InitializeIndex` and writes no status. -/
theorem Reconcile_does_not_retry_after_Error :
    IsZero erroredIndex.DeletionTimestamp = true ∧
    erroredIndex.Status.IndexStatus = Error ∧
    retryReconciler.cluster.Get = .found erroredIndex ∧
    Reconcile retryReconciler request = ⟨[.Get request], .ret ({}, none)⟩ ∧
    initializeIndexInvoked (Reconcile retryReconciler request).trace = false := by
  decide

/-- Claim C10, amended: for a request with no deletion intent whose status is
`Error`, the next reconcile does not re-run the provisioning: `InitializeIndex`
is not invoked, since `Reconcile` provisions only a request whose status is
unset; when the finalizer is already attached the run only reads the object
and returns no error. -/
theorem Reconcile_skips_errored_request (r : IndexReconciler) (req : Request) (index : Index)
    (hget : r.cluster.Get = .found index)
    (hdel : IsZero index.DeletionTimestamp = true)
    (hst : index.Status.IndexStatus = Error) :
    initializeIndexInvoked (Reconcile r req).trace = false ∧
    (ContainsFinalizer index finalizerName = true →
      Reconcile r req = ⟨[.Get req], .ret ({}, none)⟩) := by
  have hne : index.Status.IndexStatus ≠ "" := by
    rw [hst]
    decide
  refine ⟨?_, ?_⟩
  · simp [initializeIndexInvoked, Reconcile_provisions_only_unset r req index hget hne]
  · intro hfin
    have hS : setFinalizer r index = ⟨[], .ret (index, none)⟩ := by
      simp [setFinalizer_eq, hdel, hfin]
    simp [Reconcile_eq, hget, hS, hne]

/-- Claim C10, amended, on the sample run: the reconcile that follows a
failed provisioning. -/
theorem Reconcile_skips_errored_request_witness :
    initializeIndexInvoked (Reconcile retryReconciler request).trace = false ∧
    Reconcile retryReconciler request = ⟨[.Get request], .ret ({}, none)⟩ :=
  ⟨(Reconcile_skips_errored_request retryReconciler request erroredIndex rfl (by decide)
      (by decide)).1,
    (Reconcile_skips_errored_request retryReconciler request erroredIndex rfl (by decide)
      (by decide)).2 (by decide)⟩

end ProvisioningRun

/-! ## Teardown saga -/

section Teardown

open es samples

/-- Claim C4, as stated, fails: with every resource already gone each delete is
answered 404, yet `RemoveIndex` returns the error of the alias delete and
issues no other delete. -/
theorem RemoveIndex_not_found_is_error :
    goneBackend.IndicesDeleteAlias.hasStatus 404 = true ∧
    goneBackend.IndicesDelete.hasStatus 404 = true ∧
    goneBackend.SecurityDeleteUser.hasStatus 404 = true ∧
    goneBackend.SecurityDeleteRole.hasStatus 404 = true ∧
    RemoveIndex esClient goneBackend removeOps =
      ⟨[.Do esClient.client (.IndicesDeleteAlias removeOps.Index removeOps.Alias)],
        .ret (some ("Cannot delete Alias: " ++
          "[404 Not Found] aliases [es-provisioner-billing-team-a] missing"))⟩ := by
  decide

/-- Claim C4, amended: if each of the four delete calls answers success,
`RemoveIndex` issues all four deletes and returns no error; a not-found (404)
answer is not tolerated: if any of the four answers is a 404 response the
result is not nil, and a 404 answer to the alias delete makes `RemoveIndex`
return that call's error after this single call, which is what a second run
meets once every resource is gone. -/
theorem RemoveIndex_succeeds_iff_all_succeed (c : EsClient) (b : Backend)
    (ops : EsRemoveOptions) :
    (b.IndicesDeleteAlias.succeeded = true → b.IndicesDelete.succeeded = true →
      b.SecurityDeleteUser.succeeded = true → b.SecurityDeleteRole.succeeded = true →
      RemoveIndex c b ops = ⟨deleteCalls c ops, .ret none⟩) ∧
    (b.IndicesDeleteAlias.hasStatus 404 = true ∨ b.IndicesDelete.hasStatus 404 = true ∨
      b.SecurityDeleteUser.hasStatus 404 = true ∨ b.SecurityDeleteRole.hasStatus 404 = true →
      (RemoveIndex c b ops).out ≠ .ret none) ∧
    (∀ r : Response, b.IndicesDeleteAlias = ⟨some r, none⟩ → r.StatusCode = 404 →
      RemoveIndex c b ops =
        ⟨[.Do c.client (.IndicesDeleteAlias ops.Index ops.Alias)],
          .ret (some ("Cannot delete Alias: " ++ r.String))⟩) := by
  refine ⟨?_, ?_, ?_⟩
  · intro h1 h2 h3 h4
    rw [RemoveIndex_eq]
    simp [(stepOutcome_eq_ret_none _ _).2 h1, (stepOutcome_eq_ret_none _ _).2 h2,
      (stepOutcome_eq_ret_none _ _).2 h3, (stepOutcome_eq_ret_none _ _).2 h4]
  · intro h hout
    have hs := ((RemoveIndex_calls_in_order c b ops).2.1 hout).2
    rcases h with h | h | h | h
    · simp [hasStatus_404_not_succeeded _ h] at hs
    · simp [hasStatus_404_not_succeeded _ h] at hs
    · simp [hasStatus_404_not_succeeded _ h] at hs
    · simp [hasStatus_404_not_succeeded _ h] at hs
  · intro r h h404
    rw [RemoveIndex_eq]
    have hE : r.IsError = true := by simp [Response.IsError, h404]
    simp [h, stepOutcome, hE, deleteCalls]

/-- Claim C4, amended, on sample runs: four successful answers, and a second
run after everything is gone. -/
theorem RemoveIndex_succeeds_iff_all_succeed_witness :
    RemoveIndex esClient backend removeOps = ⟨deleteCalls esClient removeOps, .ret none⟩ ∧
    (RemoveIndex esClient goneBackend removeOps).out ≠ .ret none ∧
    RemoveIndex esClient goneBackend removeOps =
      ⟨[.Do esClient.client (.IndicesDeleteAlias removeOps.Index removeOps.Alias)],
        .ret (some ("Cannot delete Alias: " ++
          Response.String ⟨404, "[404 Not Found] aliases [es-provisioner-billing-team-a] missing"⟩))⟩ :=
  ⟨(RemoveIndex_succeeds_iff_all_succeed esClient backend removeOps).1
      (by decide) (by decide) (by decide) (by decide),
    (RemoveIndex_succeeds_iff_all_succeed esClient goneBackend removeOps).2.1
      (Or.inl (by decide)),
    (RemoveIndex_succeeds_iff_all_succeed esClient goneBackend removeOps).2.2 _ rfl (by decide)⟩

/-- Claim C5 at a failing input: the alias delete gets no response, only a
transport error; `deleteAlias` dereferences the nil response in its `defer`
statement, so `RemoveIndex` panics after this one call and returns no error
value. -/
theorem RemoveIndex_panics_without_response :
    unreachableBackend.IndicesDeleteAlias =
      ⟨none, some "dial tcp 10.0.0.7:9200: connect: connection refused"⟩ ∧
    RemoveIndex esClient unreachableBackend removeOps =
      ⟨[.Do esClient.client (.IndicesDeleteAlias removeOps.Index removeOps.Alias)],
        .panicked⟩ := by
  decide

end Teardown

/-! ## Provisioning saga -/

section Provisioning

open es samples

/-- Claim C7: with no explicit name, a non-empty namespace and every backend
call succeeding, `InitializeIndex` returns the concrete index
`es-provisioner-{app}-{ns}-{date}`, the alias `es-provisioner-{app}-{ns}`, the
role `{app}-{ns}-role` and the user `{app}-{ns}-role-user`, where the date is
the first ten characters of the RFC 3339 creation time; and whenever
`InitializeIndex` returns a result, its concrete index name is the alias
followed by `-` and the date. -/
theorem InitializeIndex_derives_names (c : EsClient) (b : Backend) (ops : EsSetupOptions)
    (d rest : String) (hnow : b.now = d ++ rest) (hd : d.length = 10) :
    (ops.IndexName = "" → ops.Namespace ≠ "" →
      b.IndicesCreate.succeeded = true → b.IndicesPutAlias.succeeded = true →
      b.SecurityPutRole.succeeded = true → b.SecurityPutUser.succeeded = true →
      b.NewClient 0 = none → b.IndicesGet.succeeded = true →
      (InitializeIndex c b ops).out =
        .ret (some
          { Index := "es-provisioner-" ++ ops.App ++ "-" ++ ops.Namespace ++ "-" ++ d
            Alias := "es-provisioner-" ++ ops.App ++ "-" ++ ops.Namespace
            Role := ops.App ++ "-" ++ ops.Namespace ++ "-role"
            UserName := ops.App ++ "-" ++ ops.Namespace ++ "-role-user"
            Password := b.uuidPassword }, none)) ∧
    (∀ (res : EsResult) (e : GoError), (InitializeIndex c b ops).out = .ret (some res, e) →
      res.Index = res.Alias ++ "-" ++ d) := by
  have hdate : b.now.take 10 = d := by rw [hnow]; exact take_ten_append d rest hd
  refine ⟨?_, ?_⟩
  · intro hname hns h1 h2 h3 h4 h5 h6
    have e : ops.App ++ "-" ++ ops.Namespace ++ "-role" ++ "-user" =
        ops.App ++ "-" ++ ops.Namespace ++ "-role-user" := by
      rw [String.append_assoc _ "-role" "-user"]; rfl
    rw [InitializeIndex_eq]
    simp [tolerantOutcome_of_tolerated _ _ (Or.inl h1), tolerantOutcome_of_tolerated _ _ (Or.inl h2),
      (stepOutcome_eq_ret_none _ _).2 h3, (stepOutcome_eq_ret_none _ _).2 h4, h5,
      (stepOutcome_eq_ret_none _ _).2 h6, provisionResult, resolvedName, hname, hns, hdate, e]
  · intro res e
    rw [InitializeIndex_eq]
    rcases tolerantOutcome "Cannot create index: " b.IndicesCreate with (_ | e1) | _ <;> simp
    rcases tolerantOutcome "Cannot create alias: " b.IndicesPutAlias with (_ | e1) | _ <;> simp
    rcases stepOutcome "Cannot create role: " b.SecurityPutRole with (_ | e1) | _ <;> simp
    rcases stepOutcome "Cannot create user: " b.SecurityPutUser with (_ | e1) | _ <;> simp
    cases b.NewClient 0 <;> simp
    rcases stepOutcome "Cannot test index: " b.IndicesGet with (_ | e1) | _ <;> simp
    intro h _
    rw [← h]
    simp [provisionResult, hdate]

/-- Claim C7 on the sample run: application `billing` in namespace `team-a`,
created on 2022-11-05. -/
theorem InitializeIndex_derives_names_witness :
    (InitializeIndex esClient backend setupOps).out =
      .ret (some
        { Index := "es-provisioner-" ++ "billing" ++ "-" ++ "team-a" ++ "-" ++ "2022-11-05"
          Alias := "es-provisioner-" ++ "billing" ++ "-" ++ "team-a"
          Role := "billing" ++ "-" ++ "team-a" ++ "-role"
          UserName := "billing" ++ "-" ++ "team-a" ++ "-role-user"
          Password := "6ba7b810-9dad-11d1-80b4-00c04fd430c8" }, none) ∧
    (∀ (res : EsResult) (e : GoError),
      (InitializeIndex esClient conflictBackend setupOps).out = .ret (some res, e) →
      res.Index = res.Alias ++ "-" ++ "2022-11-05") :=
  ⟨(InitializeIndex_derives_names esClient backend setupOps "2022-11-05" "T10:00:00Z"
      (by decide) (by decide)).1
      (by decide) (by decide) (by decide) (by decide) (by decide) (by decide) (by decide)
      (by decide),
    (InitializeIndex_derives_names esClient conflictBackend setupOps "2022-11-05" "T10:00:00Z"
      (by decide) (by decide)).2⟩

/-- Claim C8: when the index creation is answered with an error response
holding `resource_already_exists_exception`, `createIndex` goes on to the
alias creation; if that succeeds or is itself answered with such a response,
`createIndex` returns the concrete index name and the alias name with no
error; any other error response to the index creation yields an error and
empty names with no alias request, and any other error response to the alias
creation yields an error and empty names. -/
theorem createIndex_tolerates_conflict (c : EsClient) (b : Backend) (name schema : String)
    (shards replicas : Int) (refresh analyzers : String) (source : Bool) (props : String) :
    (b.IndicesCreate.conflict = true →
      EsCall.Do c.client (.IndicesPutAlias (name ++ "-" ++ b.now.take 10) name) ∈
        (createIndex c b name schema shards replicas refresh analyzers source props).trace) ∧
    (b.IndicesCreate.conflict = true →
      (b.IndicesPutAlias.succeeded = true ∨ b.IndicesPutAlias.conflict = true) →
      (createIndex c b name schema shards replicas refresh analyzers source props).out =
        .ret (name ++ "-" ++ b.now.take 10, name, none)) ∧
    (b.IndicesCreate.otherErrorResponse = true →
      (∃ e, (createIndex c b name schema shards replicas refresh analyzers source props).out =
        .ret ("", "", some e)) ∧
      (createIndex c b name schema shards replicas refresh analyzers source props).trace.length
        = 1) ∧
    ((b.IndicesCreate.conflict = true ∨ b.IndicesCreate.succeeded = true) →
      b.IndicesPutAlias.otherErrorResponse = true →
      ∃ e, (createIndex c b name schema shards replicas refresh analyzers source props).out =
        .ret ("", "", some e)) := by
  rw [createIndex_eq]
  refine ⟨?_, ?_, ?_, ?_⟩
  · intro h
    simp [tolerantOutcome_of_tolerated _ _ (Or.inr h)]
  · intro h h2
    simp [tolerantOutcome_of_tolerated _ _ (Or.inr h), tolerantOutcome_of_tolerated _ _ h2]
  · intro h
    obtain ⟨e, he⟩ := tolerantOutcome_of_otherErrorResponse "Cannot create index: " _ h
    simp [he]
  · intro h h2
    obtain ⟨e, he⟩ := tolerantOutcome_of_otherErrorResponse "Cannot create alias: " _ h2
    simp [tolerantOutcome_of_tolerated _ _ h.symm, he]

/-- Claim C8 on sample runs: the index exists; the index and the alias exist;
the index creation is refused; the alias creation is refused. -/
theorem createIndex_tolerates_conflict_witness :
    EsCall.Do esClient.client
        (.IndicesPutAlias ("es-provisioner-billing-team-a" ++ "-" ++ conflictBackend.now.take 10)
          "es-provisioner-billing-team-a") ∈
      (createIndex esClient conflictBackend "es-provisioner-billing-team-a" "" 2 1 "" "" false
        "").trace ∧
    (createIndex esClient conflictBackend "es-provisioner-billing-team-a" "" 2 1 "" "" false
        "").out =
      .ret ("es-provisioner-billing-team-a" ++ "-" ++ conflictBackend.now.take 10,
        "es-provisioner-billing-team-a", none) ∧
    ((∃ e, (createIndex esClient forbiddenCreateBackend "es-provisioner-billing-team-a" "" 2 1 ""
        "" false "").out = .ret ("", "", some e)) ∧
      (createIndex esClient forbiddenCreateBackend "es-provisioner-billing-team-a" "" 2 1 "" ""
        false "").trace.length = 1) ∧
    (∃ e, (createIndex esClient forbiddenAliasBackend "es-provisioner-billing-team-a" "" 2 1 ""
        "" false "").out = .ret ("", "", some e)) :=
  ⟨(createIndex_tolerates_conflict esClient conflictBackend "es-provisioner-billing-team-a" "" 2 1
      "" "" false "").1 (by decide),
    (createIndex_tolerates_conflict esClient conflictBackend "es-provisioner-billing-team-a" "" 2 1
      "" "" false "").2.1 (by decide) (Or.inr (by decide)),
    (createIndex_tolerates_conflict esClient forbiddenCreateBackend
      "es-provisioner-billing-team-a" "" 2 1 "" "" false "").2.2.1 (by decide),
    (createIndex_tolerates_conflict esClient forbiddenAliasBackend
      "es-provisioner-billing-team-a" "" 2 1 "" "" false "").2.2.2 (Or.inl (by decide))
      (by decide)⟩

end Provisioning

/-! ## Finalizer, credential secret, connection -/

section Later

open es controllers esv1 samples

/-- Claim C11 at a failing input: the request has deletion intent, does not
carry the finalizer and has no status. `setFinalizer` does nothing for it and
returns nil, and `Reconcile` goes on to `provisionIndex`: `InitializeIndex` is
invoked and the secret is created although the object carries no finalizer,
no `Update` was sent, and the request is being deleted. -/
theorem Reconcile_provisions_request_under_deletion :
    IsZero orphanIndex.DeletionTimestamp = false ∧
    ContainsFinalizer orphanIndex finalizerName = false ∧
    orphanIndex.Status.IndexStatus = "" ∧
    (Reconcile orphanReconciler request).trace.take 2 =
      [.Get request, .StatusUpdate { orphanIndex with Status := ⟨Creating⟩ }] ∧
    (Reconcile orphanReconciler request).trace.filterMap Event.updated = [] ∧
    initializeIndexInvoked (Reconcile orphanReconciler request).trace = true ∧
    secretCreated (Reconcile orphanReconciler request).trace = true ∧
    statusWrites (Reconcile orphanReconciler request).trace = [Creating, Created, Ready] := by
  decide

/-- Claim C12: for every result of `InitializeIndex` the secret `createSecret`
writes has the data keys `username`, `password`, `index`, `_index`, `role`, in
this order of insertion and no other, with the user name, the password, the
alias, the concrete index name and the role as values; and from a secret with
this data `deleteIndex` builds the remove options with the same index, alias,
role and user. -/
theorem secret_round_trip (r : IndexReconciler) (res : EsResult) (req : Request)
    (r' : IndexReconciler) (index : Index)
    (hget : r'.cluster.SecretsGet =
      ([("username", res.UserName), ("password", res.Password), ("index", res.Alias),
        ("_index", res.Index), ("role", res.Role)], none)) :
    (createSecret r (some res) req).trace.filterMap Event.secretWritten =
      [{ Name := secretName, Namespace := req.Namespace
         Annotations := [("owner", "es-provisioner")]
         Data := [("username", res.UserName), ("password", res.Password),
           ("index", res.Alias), ("_index", res.Index), ("role", res.Role)] }] ∧
    (controllers.deleteIndex r' index).trace.filterMap Event.removeOptions =
      [{ Index := res.Index, Alias := res.Alias, Role := res.Role, User := res.UserName }] := by
  constructor
  · simp [createSecret, GoMap.set, Event.secretWritten, Run.bind_eq, Run.pure_eq, Run.emit,
      Run.bind_ret]
  · rcases r' with ⟨c, ⟨get, upd, ⟨ns, nserr⟩, ⟨cm, cmerr⟩, ⟨sec, secerr⟩, sdel, sdelx, screate⟩, b⟩
    simp only [Prod.mk.injEq] at hget
    obtain ⟨h1, h2⟩ := hget
    subst h1 h2
    simp only [controllers.deleteIndex, Run.bind_eq, Run.pure_eq, Run.emit, Run.bind_ret]
    have e1 : GoMap.get [("username", res.UserName), ("password", res.Password),
        ("index", res.Alias), ("_index", res.Index), ("role", res.Role)] "_index" = res.Index := by
      simp [GoMap.get, List.lookup]
    have e2 : GoMap.get [("username", res.UserName), ("password", res.Password),
        ("index", res.Alias), ("_index", res.Index), ("role", res.Role)] "index" = res.Alias := by
      simp [GoMap.get, List.lookup]
    have e3 : GoMap.get [("username", res.UserName), ("password", res.Password),
        ("index", res.Alias), ("_index", res.Index), ("role", res.Role)] "role" = res.Role := by
      simp [GoMap.get, List.lookup]
    have e4 : GoMap.get [("username", res.UserName), ("password", res.Password),
        ("index", res.Alias), ("_index", res.Index), ("role", res.Role)] "username" =
          res.UserName := by
      simp [GoMap.get, List.lookup]
    simp only [e1, e2, e3, e4]
    generalize es.RemoveIndex _ _ _ = call
    rcases call with ⟨t, (_ | e) | _⟩ <;> cases sdel <;>
      simp [Event.removeOptions, Run.bind_ret, Run.bind_panicked]

/-- Claim C12 on the sample run: the secret written after provisioning
`billing` in `team-a`, read back by the teardown. -/
theorem secret_round_trip_witness :
    (createSecret reconciler (some esResult) request).trace.filterMap Event.secretWritten =
      [{ Name := secretName, Namespace := request.Namespace
         Annotations := [("owner", "es-provisioner")]
         Data := [("username", esResult.UserName), ("password", esResult.Password),
           ("index", esResult.Alias), ("_index", esResult.Index), ("role", esResult.Role)] }] ∧
    (controllers.deleteIndex teardownReconciler deletingIndex).trace.filterMap
        Event.removeOptions =
      [{ Index := esResult.Index, Alias := esResult.Alias, Role := esResult.Role,
         User := esResult.UserName }] :=
  secret_round_trip reconciler esResult request teardownReconciler deletingIndex (by decide)

set_option maxRecDepth 100000 in
/-- Claim C13, as stated, fails where a 64-bit duration overflows: with
thirty-three attempts that all fail and the initial delay of five seconds, the
wait before the last attempt is not `5s * 2 ^ 31` but a negative duration;
and the per-request backoff for attempt 34 is not `2 ^ 34` seconds but a
negative duration. -/
theorem connectEsWithRetry_backoff_overflows :
    manyRetries.Retries = 33 ∧
    ((connectEsWithRetry failingConnect manyRetries (5 * Second)).trace.filterMap
        EsCall.connected).length = 33 ∧
    ((connectEsWithRetry failingConnect manyRetries (5 * Second)).trace.filterMap
        EsCall.slept).getLast? = some (-7709325833709551616) ∧
    5 * Second * 2 ^ 31 = (10737418240000000000 : Int) ∧
    RetryBackoff hugeAmd64 34 = -1266874889709551616 ∧
    2 ^ 34 * Second = (17179869184000000000 : Int) := by
  decide

/-- Claim C13, amended: `connectEsWithRetry` makes at most `n` attempts; when
attempt `k + 1` is the first that succeeds it returns the handle of that
attempt after exactly `k + 1` attempts, whatever the waits; it returns an
error exactly when none of the `n` attempts succeeded, and has then made `n`
attempts; in both cases the calls of the first `m` attempts are those of the
exact backoff, with a wait of `s * 2 ^ (i - 1)` immediately before attempt
`i + 1`, for every `m` up to which these waits fit in a 64-bit duration, and
the whole run is that of the exact backoff when all its waits fit; the
per-request backoff is `2 ^ i` seconds for attempts 0 to 33, and the statuses
retried are 429, 500, 502, 503, 504. -/
theorem connectEsWithRetry_backoff (b : Backend) (ops : EsOptions) (s : Int)
    (huge : Int → Int) :
    ((connectEsWithRetry b ops s).trace.filterMap EsCall.connected).length
      ≤ ops.Retries.toNat ∧
    (∀ k, k < ops.Retries.toNat → b.NewClient k = none → (∀ j, j < k → b.NewClient j ≠ none) →
      (connectEsWithRetry b ops s).out = .ret (some ⟨configOf ops⟩, none) ∧
      (connectEsWithRetry b ops s).trace.filterMap EsCall.connected =
        List.replicate (k + 1) (configOf ops) ∧
      (∀ m, m ≤ k + 1 →
        (∀ i, 1 ≤ i → i < m → -2 ^ 63 ≤ s * 2 ^ (i - 1) ∧ s * 2 ^ (i - 1) < 2 ^ 63) →
        backoffFrom (configOf ops) s 0 m <+: (connectEsWithRetry b ops s).trace) ∧
      ((∀ i, 1 ≤ i → i ≤ k → -2 ^ 63 ≤ s * 2 ^ (i - 1) ∧ s * 2 ^ (i - 1) < 2 ^ 63) →
        (connectEsWithRetry b ops s).trace = backoffFrom (configOf ops) s 0 (k + 1))) ∧
    ((∃ e, (connectEsWithRetry b ops s).out = .ret (none, some e)) ↔
      ∀ j, j < ops.Retries.toNat → b.NewClient j ≠ none) ∧
    ((∀ j, j < ops.Retries.toNat → b.NewClient j ≠ none) →
      (connectEsWithRetry b ops s).out = .ret (none, some (exhausted ops)) ∧
      (connectEsWithRetry b ops s).trace.filterMap EsCall.connected =
        List.replicate ops.Retries.toNat (configOf ops) ∧
      (∀ m, m ≤ ops.Retries.toNat →
        (∀ i, 1 ≤ i → i < m → -2 ^ 63 ≤ s * 2 ^ (i - 1) ∧ s * 2 ^ (i - 1) < 2 ^ 63) →
        backoffFrom (configOf ops) s 0 m <+: (connectEsWithRetry b ops s).trace) ∧
      ((∀ i, 1 ≤ i → i < ops.Retries.toNat →
          -2 ^ 63 ≤ s * 2 ^ (i - 1) ∧ s * 2 ^ (i - 1) < 2 ^ 63) →
        (connectEsWithRetry b ops s).trace =
          backoffFrom (configOf ops) s 0 ops.Retries.toNat)) ∧
    (∀ i : Int, 0 ≤ i → i ≤ 33 → RetryBackoff huge i = 2 ^ i.toNat * Second) ∧
    (∀ code : Int, code ∈ (configOf ops).RetryOnStatus ↔ code ∈ [429, 500, 502, 503, 504]) := by
  have hrun := connectEsWithRetry_eq b ops s
  refine ⟨?_, ?_, ?_, ?_, ?_, ?_⟩
  · rw [hrun]
    cases hf : firstSuccess b.NewClient 0 ops.Retries.toNat with
    | none => simp [attemptsFrom_connected_length]
    | some k =>
      have hk := (firstSuccess_spec _ _ _ _ hf).2.1
      simp only [attemptsFrom_connected_length]
      omega
  · intro k hk hnone hbefore
    cases hf : firstSuccess b.NewClient 0 ops.Retries.toNat with
    | none =>
      exact absurd hnone ((firstSuccess_none _ _ _).1 hf k (Nat.zero_le _) (by omega))
    | some k' =>
      obtain ⟨-, -, h3, h4⟩ := firstSuccess_spec _ _ _ _ hf
      have hkk : k' = k := by
        rcases Nat.lt_trichotomy k' k with h | h | h
        · exact absurd h3 (hbefore k' h)
        · exact h
        · exact absurd hnone (h4 k (Nat.zero_le _) h)
      subst hkk
      rw [hrun, hf]
      refine ⟨rfl, attemptsFrom_connected _ _ _ _, ?_, ?_⟩
      · intro m hm hfit
        exact backoffFrom_opens_attemptsFrom _ _ _ _ hm hfit
      · intro hfit
        simp only
        rw [attemptsFrom_eq_backoffFrom]
        intro j h1 h2
        have := hfit (j + 1) (by omega) (by omega)
        simpa using this
  · rw [hrun]
    cases hf : firstSuccess b.NewClient 0 ops.Retries.toNat with
    | none =>
      have h := (firstSuccess_none _ _ _).1 hf
      simp only [Outcome.ret.injEq, Prod.mk.injEq, true_and, Option.some.injEq, exists_eq',
        true_iff]
      intro j hj
      exact h j (Nat.zero_le _) (by omega)
    | some k =>
      obtain ⟨-, h2, h3, -⟩ := firstSuccess_spec _ _ _ _ hf
      constructor
      · rintro ⟨e, h⟩
        simp at h
      · intro h
        exact absurd h3 (h k (by omega))
  · intro hall
    have hf : firstSuccess b.NewClient 0 ops.Retries.toNat = none :=
      (firstSuccess_none _ _ _).2 (fun j _ h2 => hall j (by omega))
    rw [hrun, hf]
    refine ⟨rfl, attemptsFrom_connected _ _ _ _, ?_, ?_⟩
    · intro m hm hfit
      exact backoffFrom_opens_attemptsFrom _ _ _ _ hm hfit
    · intro hfit
      simp only
      rw [attemptsFrom_eq_backoffFrom]
      intro j h1 h2
      have := hfit (j + 1) (by omega) (by omega)
      simpa using this
  · intro i h0 h33
    obtain ⟨n, rfl⟩ := Int.eq_ofNat_of_zero_le h0
    have hn : n ≤ 33 := by omega
    have hp : (2 : Int) ^ n ≤ 2 ^ 33 := by
      exact_mod_cast Nat.pow_le_pow_right (by norm_num) hn
    have h0 : (0 : Int) < 2 ^ n := by positivity
    have e1 : ¬ ((n : Int) < 0) := by omega
    have e2 : (n : Int) < 63 := by omega
    simp only [RetryBackoff, exp2Duration, e1, e2, if_false, if_true, Int.toNat_ofNat, Second]
    apply wrapInt64_of_fits
    · linarith
    · norm_num at hp ⊢
      linarith
  · intro code
    simp only [configOf]
    split <;> split <;> simp <;> tauto

/-- Claim C13, amended, on sample runs: the first attempt succeeds; the third
of five attempts succeeds after waits of five and ten seconds; five failing
attempts with waits of five, ten, twenty and forty seconds; in a run of
thirty-three failing attempts the first thirty-two are those of the exact
backoff. -/
theorem connectEsWithRetry_backoff_witness :
    (connectEsWithRetry backend fiveRetries (5 * Second)).out =
      .ret (some ⟨configOf fiveRetries⟩, none) ∧
    (connectEsWithRetry backend fiveRetries (5 * Second)).trace.filterMap EsCall.connected =
      List.replicate (0 + 1) (configOf fiveRetries) ∧
    (connectEsWithRetry thirdTimeLucky fiveRetries (5 * Second)).out =
      .ret (some ⟨configOf fiveRetries⟩, none) ∧
    (connectEsWithRetry thirdTimeLucky fiveRetries (5 * Second)).trace =
      backoffFrom (configOf fiveRetries) (5 * Second) 0 (2 + 1) ∧
    (connectEsWithRetry failingConnect badAddress (5 * Second)).out =
      .ret (none, some (exhausted badAddress)) ∧
    (connectEsWithRetry failingConnect badAddress (5 * Second)).trace =
      backoffFrom (configOf badAddress) (5 * Second) 0 badAddress.Retries.toNat ∧
    backoffFrom (configOf manyRetries) (5 * Second) 0 32 <+:
      (connectEsWithRetry failingConnect manyRetries (5 * Second)).trace ∧
    RetryBackoff hugeAmd64 3 = 2 ^ (3 : Int).toNat * Second :=
  ⟨((connectEsWithRetry_backoff backend fiveRetries (5 * Second) hugeAmd64).2.1 0
      (by decide) (by decide) (by decide)).1,
    ((connectEsWithRetry_backoff backend fiveRetries (5 * Second) hugeAmd64).2.1 0
      (by decide) (by decide) (by decide)).2.1,
    ((connectEsWithRetry_backoff thirdTimeLucky fiveRetries (5 * Second) hugeAmd64).2.1 2
      (by decide) (by decide) (by decide)).1,
    ((connectEsWithRetry_backoff thirdTimeLucky fiveRetries (5 * Second) hugeAmd64).2.1 2
      (by decide) (by decide) (by decide)).2.2.2 (by decide),
    ((connectEsWithRetry_backoff failingConnect badAddress (5 * Second) hugeAmd64).2.2.2.1
      (by decide)).1,
    ((connectEsWithRetry_backoff failingConnect badAddress (5 * Second) hugeAmd64).2.2.2.1
      (by decide)).2.2.2 (by decide),
    ((connectEsWithRetry_backoff failingConnect manyRetries (5 * Second) hugeAmd64).2.2.2.1
      (by decide)).2.2.1 32 (by decide) (by decide),
    (connectEsWithRetry_backoff failingConnect manyRetries (5 * Second) hugeAmd64).2.2.2.2.1 3
      (by decide) (by decide)⟩

/-- Claim C14 at a failing input: the backend cannot be reached, so every
client call returns a nil response and an error. Each of the nine helpers
dereferences the nil response in its `defer` statement, before the error
check, and panics; `InitializeIndex` and `RemoveIndex` panic at their first
call and return no error value. -/
theorem helpers_panic_when_backend_is_down :
    downBackend.IndicesCreate = refused ∧ refused.res = none ∧
    (createIndex esClient downBackend "es-provisioner-billing-team-a" "" 2 1 "" "" false
      "").out = .panicked ∧
    (addAlias esClient downBackend removeOps.Index removeOps.Alias).out = .panicked ∧
    (createRole esClient downBackend removeOps.Index removeOps.Alias "billing" "team-a").out =
      .panicked ∧
    (createUser esClient downBackend removeOps.Index removeOps.Role).out = .panicked ∧
    (testIndex downBackend (some esClient.client) removeOps.Index).out = .panicked ∧
    (deleteAlias esClient downBackend removeOps.Index removeOps.Alias).out = .panicked ∧
    (es.deleteIndex esClient downBackend removeOps.Index).out = .panicked ∧
    (deleteUser esClient downBackend removeOps.User).out = .panicked ∧
    (deleteRole esClient downBackend removeOps.Role).out = .panicked ∧
    InitializeIndex esClient downBackend setupOps =
      ⟨(provisionCalls esClient downBackend setupOps).take 1, .panicked⟩ ∧
    RemoveIndex esClient downBackend removeOps =
      ⟨(deleteCalls esClient removeOps).take 1, .panicked⟩ := by
  decide

end Later
end EsProvisioner
